import Mathlib

/-!
Verification of the Prompt Store (storage layer) of the Prompt_storage
repository: a shallow embedding in Lean 4 of `src/models.py` (the `Prompt`
record and its dict serialization) and `src/storage.py` (the `Storage`
class: schema validation, atomic write with rotating backups, restore from
backup, CRUD operations and import).

Python JSON values are modelled by the inductive `Json`; Python exceptions
by `Except` with the error type `PyErr` (whose predicates mirror Python's
exception hierarchy: `json.JSONDecodeError ⊂ ValueError`,
`FileNotFoundError ⊂ OSError`).  The filesystem state seen by the store is
a `StoreState`: the primary file, the five backup slots, the transient
temp file, the `_restored_from_backup` flag, and a ghost counter of save
operations used to state "performs exactly one save" properties.

Fresh values produced by `uuid.uuid4()` and `datetime.now().isoformat()`
are supplied explicitly through a `Defaults` record (one per deserialized
item), making every function deterministic and executable.
-/

/-- A parsed JSON value (the result of Python's `json.load`).  Numbers are
modelled as integers; parsed objects have pairwise-distinct keys, so field
lookup by first match agrees with Python dict access. -/
inductive Json where
  | null
  | bool (b : Bool)
  | num (n : Int)
  | str (s : String)
  | arr (xs : List Json)
  | obj (fields : List (String × Json))

/-- Field access on a parsed JSON object: Python's `data.get(k)`. -/
def jGet (fields : List (String × Json)) (k : String) : Option Json :=
  (fields.find? (fun kv => kv.1 = k)).map (fun kv => kv.2)

/-- Python's `data.get(k, dflt)`. -/
def jGetD (fields : List (String × Json)) (k : String) (dflt : Json) : Json :=
  (jGet fields k).getD dflt

/-- Python truthiness (`bool(v)` / use of `v` in `or`) on a JSON value. -/
def jTruthy : Json → Bool
  | Json.null => false
  | Json.bool b => b
  | Json.num n => n != 0
  | Json.str s => s ≠ ""
  | Json.arr xs => !xs.isEmpty
  | Json.obj fs => !fs.isEmpty

/-- Python's `str(v)` on a JSON value.  The renderings of composite values
(lists/objects) are abbreviated placeholders: the store only ever applies
`str` to strings in practice, and no claim depends on composite rendering. -/
def pyStr : Json → String
  | Json.null => "None"
  | Json.bool b => if b then "True" else "False"
  | Json.num n => toString n
  | Json.str s => s
  | Json.arr _ => "<list>"
  | Json.obj _ => "<dict>"

/-- Python's `int(v)` on a JSON value, `none` when `int()` raises.
String conversion accepts an optional sign and digits. -/
def pyInt : Json → Option Int
  | Json.num n => some n
  | Json.bool b => some (if b then 1 else 0)
  | Json.str s => s.toInt?
  | _ => none

/-- The `Category` enum of `models.py`. -/
inductive Category where
  | persona
  | systemPrompt
  | template
  | other
deriving DecidableEq, Repr

/-- Embeds `Category.value`: the JSON string of each enum member. -/
def Category.value : Category → String
  | Category.persona => "Persona"
  | Category.systemPrompt => "System Prompt"
  | Category.template => "Template"
  | Category.other => "Other"

/-- The `Category(...)` constructor: `none` models the `ValueError` Python
raises on an unknown value. -/
def Category.fromValue : String → Option Category
  | "Persona" => some Category.persona
  | "System Prompt" => some Category.systemPrompt
  | "Template" => some Category.template
  | "Other" => some Category.other
  | _ => none

/-- The `Prompt` dataclass of `models.py`.  `history` keeps the parsed JSON
entries verbatim, as the Python field (a list of dicts) does. -/
structure Prompt where
  name : String
  content : String
  category : Category
  tags : List String
  sensitive : Bool
  pinned : Bool
  history : List Json
  custom_category : String
  version_group_id : String
  version_number : Int
  previous_version_id : Option String
  id : String
  created_at : String
  updated_at : String

/-- Embeds `Prompt.to_dict` of `models.py`. -/
def Prompt.to_dict (p : Prompt) : List (String × Json) :=
  [ ("id", Json.str p.id),
    ("name", Json.str p.name),
    ("content", Json.str p.content),
    ("category", Json.str p.category.value),
    ("tags", Json.arr (p.tags.map Json.str)),
    ("sensitive", Json.bool p.sensitive),
    ("pinned", Json.bool p.pinned),
    ("history", Json.arr p.history),
    ("custom_category", Json.str p.custom_category),
    ("version_group_id",
      Json.str (if p.version_group_id = "" then p.id else p.version_group_id)),
    ("version_number",
      Json.num (max 1 (if p.version_number = 0 then 1 else p.version_number))),
    ("previous_version_id",
      (p.previous_version_id.map Json.str).getD Json.null),
    ("created_at", Json.str p.created_at),
    ("updated_at", Json.str p.updated_at) ]

/-- Embeds `Prompt._coerce_version_number` of `models.py`. -/
def coerce_version_number (v : Json) : Int :=
  match pyInt v with
  | some n => if n > 0 then n else 1
  | none => 1

/-- One batch of fresh values for `Prompt.from_dict`: the `uuid.uuid4()`
and `datetime.now().isoformat()` defaults a single deserialization may
consume. -/
structure Defaults where
  freshId : String
  freshVgid : String
  nowCreated : String
  nowUpdated : String

/-- Typed coercion of a parsed JSON array to a string list; `none` when an
element is not a string (schema validation rules that out before
`from_dict` runs). -/
def asStrList : List Json → Option (List String)
  | [] => some []
  | Json.str s :: rest => (asStrList rest).map (fun l => s :: l)
  | _ :: _ => none

/-- Embeds `data[k]` / `data.get(k)` narrowed to a string field that is required
(`name`, `content`): `none` on a missing key (Python's `KeyError`) and,
as a typed narrowing, on a non-string value. -/
def getStrField (data : List (String × Json)) (k : String) : Option String :=
  match jGet data k with
  | some (Json.str s) => some s
  | _ => none

/-- Embeds `data.get(k, dflt)` narrowed to an optional string field (`id`,
`created_at`, `updated_at`): the default on a missing key, `none` (typed
narrowing) on a non-string value. -/
def getStrFieldD (data : List (String × Json)) (k : String) (dflt : String) :
    Option String :=
  match jGet data k with
  | some (Json.str s) => some s
  | none => some dflt
  | some _ => none

/-- Embeds `Category(data.get("category", "Other"))`: `none` is the raised
`ValueError`. -/
def getCategoryField (data : List (String × Json)) : Option Category :=
  match jGet data "category" with
  | some (Json.str s) => Category.fromValue s
  | none => Category.fromValue "Other"
  | some _ => none

/-- Embeds `data.get("tags", [])` narrowed to a string list (typed narrowing of
the untyped Python field). -/
def getTagsField (data : List (String × Json)) : Option (List String) :=
  match jGet data "tags" with
  | some (Json.arr xs) => asStrList xs
  | none => some []
  | some _ => none

/-- Embeds `data.get("history", []) if isinstance(..., list) else []`. -/
def getHistoryField (data : List (String × Json)) : List Json :=
  match jGet data "history" with
  | some (Json.arr xs) => xs
  | _ => []

/-- Embeds `data.get("previous_version_id") if isinstance(..., str) else None`. -/
def getPvidField (data : List (String × Json)) : Option String :=
  match jGet data "previous_version_id" with
  | some (Json.str s) => some s
  | _ => none

/-- Embeds `Prompt.from_dict` of `models.py`. `none` models an exception
(`KeyError` on a missing `name`/`content`, `ValueError` from `Category`).
The embedding is typed where Python is not: a non-string value in a
string-typed field (`id`, `name`, `content`, `tags` elements,
`created_at`, `updated_at`) also yields `none`; schema validation, which
always precedes `from_dict` in the store, rules those inputs out. -/
def Prompt.from_dict (d : Defaults) (data : List (String × Json)) : Option Prompt := do
  let id ← getStrFieldD data "id" d.freshId
  let name ← getStrField data "name"
  let content ← getStrField data "content"
  let category ← getCategoryField data
  let tags ← getTagsField data
  let sensitive := jTruthy (jGetD data "sensitive" (Json.bool false))
  let pinned := jTruthy (jGetD data "pinned" (Json.bool false))
  let history := getHistoryField data
  let ccRaw := jGetD data "custom_category" (Json.str "")
  let custom_category := if jTruthy ccRaw then pyStr ccRaw else ""
  let vgRaw := jGetD data "version_group_id" Json.null
  let idRaw := jGetD data "id" Json.null
  let version_group_id :=
    if jTruthy vgRaw then pyStr vgRaw
    else if jTruthy idRaw then pyStr idRaw
    else d.freshVgid
  let version_number := coerce_version_number (jGetD data "version_number" (Json.num 1))
  let previous_version_id := getPvidField data
  let created_at ← getStrFieldD data "created_at" d.nowCreated
  let updated_at ← getStrFieldD data "updated_at" d.nowUpdated
  some { name := name, content := content, category := category, tags := tags,
         sensitive := sensitive, pinned := pinned, history := history,
         custom_category := custom_category, version_group_id := version_group_id,
         version_number := version_number, previous_version_id := previous_version_id,
         id := id, created_at := created_at, updated_at := updated_at }

/-- Embeds `Prompt.update` of `models.py`: refresh `updated_at` to "now". -/
def Prompt.refresh (p : Prompt) (now : String) : Prompt :=
  { p with updated_at := now }

/-- Modelled Python exceptions relevant to the store.  The `is...`
predicates encode the exception hierarchy used by `except` clauses. -/
inductive PyErr where
  | fileNotFound
  | jsonDecode
  | valueError (msg : String)
  | osError
deriving Repr

/-- Membership in `except (FileNotFoundError, json.JSONDecodeError, ValueError)`
(the clause of `Storage._load_raw`): `json.JSONDecodeError` is a subclass of
`ValueError`, so both are caught; a plain `OSError` is not. -/
def PyErr.caughtByLoadRaw : PyErr → Bool
  | PyErr.fileNotFound => true
  | PyErr.jsonDecode => true
  | PyErr.valueError _ => true
  | PyErr.osError => false

/-- One file as the store can observe it: absent, present but not parseable
as JSON (also the state of a partially written file), present and parsing
to a JSON value, or present but unreadable (`open`/read raises an `OSError`
that is not `FileNotFoundError`, e.g. permission denied). -/
inductive FileData where
  | absent
  | invalid
  | json (j : Json)
  | denied

/-- Embeds `path.exists()` on a modelled file. -/
def FileData.present : FileData → Bool
  | FileData.absent => false
  | _ => true

/-- Embeds `Storage._read_json`: `open` + `json.load`. -/
def read_json : FileData → Except PyErr Json
  | FileData.absent => Except.error PyErr.fileNotFound
  | FileData.invalid => Except.error PyErr.jsonDecode
  | FileData.denied => Except.error PyErr.osError
  | FileData.json j => Except.ok j

/-- The filesystem and in-memory state of one `Storage` instance:
the primary `prompts.json`, backup slots `.bak1` … `.bak5`, the transient
temp file of the atomic writer, and the `_restored_from_backup` flag.
`saveCount` is a ghost counter of completed `save_prompts` calls, used to
state "performs exactly one save" claims; no store behaviour reads it. -/
structure StoreState where
  primary : FileData
  bak1 : FileData
  bak2 : FileData
  bak3 : FileData
  bak4 : FileData
  bak5 : FileData
  tmp : FileData
  restored_from_backup : Bool
  saveCount : Nat

/-- Embeds `os.replace(bak4, bak5)` guarded by `bak4.exists()`. -/
def rot5 (s : StoreState) : StoreState :=
  if s.bak4.present then { s with bak5 := s.bak4, bak4 := FileData.absent } else s

/-- Embeds `os.replace(bak3, bak4)` guarded by `bak3.exists()`. -/
def rot4 (s : StoreState) : StoreState :=
  if s.bak3.present then { s with bak4 := s.bak3, bak3 := FileData.absent } else s

/-- Embeds `os.replace(bak2, bak3)` guarded by `bak2.exists()`. -/
def rot3 (s : StoreState) : StoreState :=
  if s.bak2.present then { s with bak3 := s.bak2, bak2 := FileData.absent } else s

/-- Embeds `os.replace(bak1, bak2)` guarded by `bak1.exists()`. -/
def rot2 (s : StoreState) : StoreState :=
  if s.bak1.present then { s with bak2 := s.bak1, bak1 := FileData.absent } else s

/-- Embeds `os.replace(prompts_file, bak1)` guarded by `prompts_file.exists()`. -/
def rotPrimary (s : StoreState) : StoreState :=
  if s.primary.present then { s with bak1 := s.primary, primary := FileData.absent } else s

/-- Embeds `Storage._rotate_backups`: shift `.bak(i-1)` to `.bak(i)` for `i = 5..2`,
then move the current primary file into `.bak1`. -/
def rotate_backups (s : StoreState) : StoreState :=
  rotPrimary (rot2 (rot3 (rot4 (rot5 s))))

/-- Embeds `Storage._write_json_atomic` on its success path (no injected I/O
fault): write and sync the temp file, optionally rotate backups, rename
the temp file over the target, clean up.  Rotation is applied only when
`path` is the primary file, which is the only way the store calls it. -/
def write_json_atomic (s : StoreState) (data : Json) (rotate : Bool) : StoreState :=
  let s1 := { s with tmp := FileData.json data }
  let s2 := if rotate then rotate_backups s1 else s1
  { s2 with primary := FileData.json data, tmp := FileData.absent }

/-- Every filesystem state an observer (or a crash) can see during
`Storage._write_json_atomic`, in program order: initial; temp file
partially written; temp file fully written and synced; after each
`os.replace` of the backup rotation (when requested); after the final
atomic rename (which also consumes the temp file). -/
def write_json_atomic_trace (s : StoreState) (data : Json) (rotate : Bool) :
    List StoreState :=
  let sPartial := { s with tmp := FileData.invalid }
  let sTmp := { s with tmp := FileData.json data }
  let rotStates :=
    if rotate then
      [rot5 sTmp, rot4 (rot5 sTmp), rot3 (rot4 (rot5 sTmp)),
       rot2 (rot3 (rot4 (rot5 sTmp))), rotate_backups sTmp]
    else []
  let afterRot := if rotate then rotate_backups sTmp else sTmp
  s :: sPartial :: sTmp :: rotStates ++
    [{ afterRot with primary := FileData.json data, tmp := FileData.absent }]

/-- Embeds `Storage._save_raw` / the write half of `Storage.save_prompts`:
atomic write with backup rotation.  Bumps the ghost save counter. -/
def save_raw (s : StoreState) (data : Json) : StoreState :=
  { write_json_atomic s data true with saveCount := s.saveCount + 1 }

/-- The `name`/`content` check of `_validate_prompt_item`: the key must be
present with a string value. -/
def check_required_str (idx : Nat) (fields : List (String × Json)) (k : String) :
    Except String Unit :=
  match jGet fields k with
  | some (Json.str _) => Except.ok ()
  | _ => Except.error ("Item " ++ toString idx ++ " is missing a '" ++ k ++ "' string.")

/-- The `category` check: if present, a string among the enum values. -/
def check_category (idx : Nat) (fields : List (String × Json)) :
    Except String Unit :=
  match jGet fields "category" with
  | none => Except.ok ()
  | some (Json.str s) =>
      if (Category.fromValue s).isSome then Except.ok ()
      else Except.error ("Item " ++ toString idx ++ " has invalid 'category'.")
  | some _ => Except.error ("Item " ++ toString idx ++ " has invalid 'category'.")

/-- The `tags` check: if present, a list of strings. -/
def check_tags (idx : Nat) (fields : List (String × Json)) : Except String Unit :=
  match jGet fields "tags" with
  | none => Except.ok ()
  | some (Json.arr xs) =>
      if xs.all (fun x => match x with | Json.str _ => true | _ => false) then Except.ok ()
      else Except.error ("Item " ++ toString idx ++ " has invalid 'tags' list (strings only).")
  | some _ => Except.error ("Item " ++ toString idx ++ " has invalid 'tags' list (strings only).")

/-- The `sensitive`/`pinned` check: if present, a boolean. -/
def check_bool_field (idx : Nat) (fields : List (String × Json)) (k : String) :
    Except String Unit :=
  match jGet fields k with
  | none => Except.ok ()
  | some (Json.bool _) => Except.ok ()
  | some _ => Except.error ("Item " ++ toString idx ++ " has invalid '" ++ k ++ "' (boolean expected).")

/-- The `history` check: if present, a list whose entries are objects. -/
def check_history (idx : Nat) (fields : List (String × Json)) : Except String Unit :=
  match jGet fields "history" with
  | none => Except.ok ()
  | some (Json.arr xs) =>
      if xs.all (fun x => match x with | Json.obj _ => true | _ => false) then Except.ok ()
      else Except.error ("Item " ++ toString idx ++ " has an invalid 'history' entry (object expected).")
  | some _ => Except.error ("Item " ++ toString idx ++ " has invalid 'history' (list expected).")

/-- The `id`/`created_at`/`updated_at` check: if present, a string. -/
def check_opt_str (idx : Nat) (fields : List (String × Json)) (k : String) :
    Except String Unit :=
  match jGet fields k with
  | none => Except.ok ()
  | some (Json.str _) => Except.ok ()
  | some _ => Except.error ("Item " ++ toString idx ++ " has invalid '" ++ k ++ "' (string expected).")

/-- Embeds `Storage._validate_prompt_item`: the checks in source order, stopping
at the first failure.  `Except.error msg` models the raised
`ValueError(msg)`; `idx` is the 1-based index used in messages. -/
def validate_prompt_item (idx : Nat) (item : Json) : Except String Unit :=
  match item with
  | Json.obj fields =>
    Except.bind (check_required_str idx fields "name") (fun _ =>
    Except.bind (check_required_str idx fields "content") (fun _ =>
    Except.bind (check_category idx fields) (fun _ =>
    Except.bind (check_tags idx fields) (fun _ =>
    Except.bind (check_bool_field idx fields "sensitive") (fun _ =>
    Except.bind (check_bool_field idx fields "pinned") (fun _ =>
    Except.bind (check_history idx fields) (fun _ =>
    Except.bind (check_opt_str idx fields "id") (fun _ =>
    Except.bind (check_opt_str idx fields "created_at") (fun _ =>
    check_opt_str idx fields "updated_at")))))))))
  | _ => Except.error ("Item " ++ toString idx ++ " is not an object.")

/-- Helper for `validate_prompt_list`: validate items left to right with
1-based indices, stopping at the first failure as the Python loop does. -/
def validate_items (idx : Nat) : List Json → Except String Unit
  | [] => Except.ok ()
  | item :: rest => do
      let _ ← validate_prompt_item idx item
      validate_items (idx + 1) rest

/-- Embeds `Storage._validate_prompt_list`. -/
def validate_prompt_list (data : Json) : Except String Unit :=
  match data with
  | Json.arr items => validate_items 1 items
  | _ => Except.error "Top-level JSON must be a list of prompt objects."

/-- The `try` body of one `_restore_from_backup` loop iteration: parse and
validate one backup slot.  An absent slot is skipped by the `exists()`
check; any `json.JSONDecodeError`, `ValueError` or `OSError` is caught and
the loop continues — every modelled error is in that set, so failure is
simply `none`. -/
def try_backup (fd : FileData) : Option Json :=
  match read_json fd with
  | Except.error _ => none
  | Except.ok j =>
    match validate_prompt_list j with
    | Except.ok _ => some j
    | Except.error _ => none

/-- The scan of `_restore_from_backup`: slots `.bak1` (newest) to `.bak5`
(oldest), first one that parses and validates. -/
def first_valid_backup (s : StoreState) : Option Json :=
  (((((try_backup s.bak1).orElse
      (fun _ => try_backup s.bak2)).orElse
      (fun _ => try_backup s.bak3)).orElse
      (fun _ => try_backup s.bak4)).orElse
      (fun _ => try_backup s.bak5))

/-- Embeds `Storage._restore_from_backup`: write the newest valid backup over the
primary file with the atomic writer, *without* rotating backups, and set
the restore flag; report whether a restore happened. -/
def restore_from_backup (s : StoreState) : Bool × StoreState :=
  match first_valid_backup s with
  | some data =>
      (true, { write_json_atomic s data false with restored_from_backup := true })
  | none => (false, s)

/-- Embeds `Storage.consume_restore_flag`. -/
def consume_restore_flag (s : StoreState) : Bool × StoreState :=
  if s.restored_from_backup then (true, { s with restored_from_backup := false })
  else (false, s)

/-- Read a file and run `_validate_prompt_list` on it, returning the
validated top-level array (the body of the `try` in `_load_raw`).
Validation failure is the raised `ValueError`. -/
def read_validate (fd : FileData) : Except PyErr (List Json) := do
  let j ← read_json fd
  match validate_prompt_list j with
  | Except.error m => Except.error (PyErr.valueError m)
  | Except.ok _ =>
    match j with
    | Json.arr items => Except.ok items
    | _ => Except.error (PyErr.valueError "Top-level JSON must be a list of prompt objects.")

/-- Embeds `Storage._load_raw`.  The outer `except` catches only
`FileNotFoundError`, `json.JSONDecodeError` and `ValueError`; an `OSError`
that is none of these propagates.  After a successful restore the re-read
catches `json.JSONDecodeError`, `ValueError` and `OSError` — every
modelled error — and degrades to `[]`. -/
def load_raw (s : StoreState) : Except PyErr (List Json × StoreState) :=
  match read_validate s.primary with
  | Except.ok items => Except.ok (items, s)
  | Except.error e =>
    if e.caughtByLoadRaw then
      match restore_from_backup s with
      | (true, s1) =>
        match read_validate s1.primary with
        | Except.ok items => Except.ok (items, s1)
        | Except.error _ => Except.ok ([], s1)
      | (false, s1) => Except.ok ([], s1)
    else Except.error e

/-- Embeds `Prompt.from_dict` lifted to `Except`: the exception a failing
deserialization would raise out of `load_prompts` / `import_from_file`. -/
def fromDictE (d : Defaults) (item : Json) : Except PyErr Prompt :=
  match item with
  | Json.obj fields =>
    match Prompt.from_dict d fields with
    | some p => Except.ok p
    | none => Except.error (PyErr.valueError "from_dict")
  | _ => Except.error (PyErr.valueError "from_dict")

/-- Deserialize a list of validated items in order, numbering them so each
gets its own batch of fresh defaults. -/
def fromDictList (d : Nat → Defaults) (idx : Nat) :
    List Json → Except PyErr (List Prompt)
  | [] => Except.ok []
  | item :: rest => do
      let p ← fromDictE (d idx) item
      let ps ← fromDictList d (idx + 1) rest
      Except.ok (p :: ps)

/-- Embeds `Storage.load_prompts`: `_load_raw` then `Prompt.from_dict` per item. -/
def load_prompts (d : Nat → Defaults) (s : StoreState) :
    Except PyErr (List Prompt × StoreState) := do
  let (items, s1) ← load_raw s
  let prompts ← fromDictList d 0 items
  Except.ok (prompts, s1)

/-- Embeds `Storage.save_prompts`: serialize all prompts and `_save_raw` the
resulting array (atomic write with rotation). -/
def save_prompts (prompts : List Prompt) (s : StoreState) : StoreState :=
  save_raw s (Json.arr (prompts.map (fun p => Json.obj p.to_dict)))

/-- Embeds `Storage.add_prompt`: load, append, save, return the same prompt. -/
def add_prompt (d : Nat → Defaults) (s : StoreState) (prompt : Prompt) :
    Except PyErr (Prompt × StoreState) := do
  let (prompts, s1) ← load_prompts d s
  Except.ok (prompt, save_prompts (prompts ++ [prompt]) s1)

/-- Embeds `Storage.HISTORY_LIMIT`. -/
def HISTORY_LIMIT : Nat := 10

/-- Embeds `Storage._should_add_version`: the update is "meaningful" when any of
the six tracked fields differs between the stored and incoming record. -/
def should_add_version (existing updated : Prompt) : Bool :=
  existing.name ≠ updated.name ∨
  existing.content ≠ updated.content ∨
  existing.category ≠ updated.category ∨
  existing.tags ≠ updated.tags ∨
  existing.sensitive ≠ updated.sensitive ∨
  existing.pinned ≠ updated.pinned

/-- Embeds `Storage._snapshot_prompt`: the history entry recording a prompt's
pre-update state; `saved_at` is the prompt's `updated_at`. -/
def snapshot_prompt (p : Prompt) : Json :=
  Json.obj
    [ ("name", Json.str p.name),
      ("content", Json.str p.content),
      ("category", Json.str p.category.value),
      ("tags", Json.arr (p.tags.map Json.str)),
      ("sensitive", Json.bool p.sensitive),
      ("pinned", Json.bool p.pinned),
      ("saved_at", Json.str p.updated_at) ]

/-- The loop body of `Storage.update_prompt` on the in-memory collection:
find the first record with the incoming id, carry its history over to the
incoming record (prepending a snapshot of the stored state and trimming to
`HISTORY_LIMIT` when the update is meaningful), refresh `updated_at`, and
replace the record in place.  `none` when no record matches. -/
def update_in_list (now : String) (incoming : Prompt) :
    List Prompt → Option (List Prompt)
  | [] => none
  | p :: rest =>
    if p.id = incoming.id then
      let history :=
        if should_add_version p incoming then
          (snapshot_prompt p :: p.history).take HISTORY_LIMIT
        else p.history
      some (({ incoming with history := history }).refresh now :: rest)
    else (update_in_list now incoming rest).map (fun l => p :: l)

/-- Embeds `Storage.update_prompt`: load, replace the matching record (see
`update_in_list`), save when a record matched; report whether it did. -/
def update_prompt (d : Nat → Defaults) (now : String) (s : StoreState)
    (incoming : Prompt) : Except PyErr (Bool × StoreState) := do
  let (prompts, s1) ← load_prompts d s
  match update_in_list now incoming prompts with
  | some updated => Except.ok (true, save_prompts updated s1)
  | none => Except.ok (false, s1)

/-- Embeds `Storage.delete_prompt`: load, filter out the id, save only when the
length changed; report whether anything was removed. -/
def delete_prompt (d : Nat → Defaults) (s : StoreState) (pid : String) :
    Except PyErr (Bool × StoreState) := do
  let (prompts, s1) ← load_prompts d s
  let remaining := prompts.filter (fun p => p.id ≠ pid)
  if remaining.length < prompts.length then
    Except.ok (true, save_prompts remaining s1)
  else Except.ok (false, s1)

/-- Embeds `Storage.delete_prompts`: an empty id list short-circuits without even
loading; otherwise one load, one filter against the id set, and one save —
only when something was removed.  Returns the count removed. -/
def delete_prompts (d : Nat → Defaults) (s : StoreState) (pids : List String) :
    Except PyErr (Nat × StoreState) :=
  if pids.isEmpty then Except.ok (0, s)
  else do
    let (prompts, s1) ← load_prompts d s
    let remaining := prompts.filter (fun p => p.id ∉ pids)
    let deleted := prompts.length - remaining.length
    if deleted ≠ 0 then Except.ok (deleted, save_prompts remaining s1)
    else Except.ok (deleted, s1)

/-- The append loop of `Storage.import_from_file`: deserialize each item
and keep those whose id is not in `existing_ids` — a set computed once
before the loop and never extended, so duplicates *within* the imported
file are all kept.  Returns the appended prompts and the count. -/
def import_loop (d : Nat → Defaults) (existing_ids : List String) (idx : Nat) :
    List Json → Except PyErr (List Prompt × Nat)
  | [] => Except.ok ([], 0)
  | item :: rest => do
      let p ← fromDictE (d idx) item
      let (ps, n) ← import_loop d existing_ids (idx + 1) rest
      if p.id ∈ existing_ids then Except.ok (ps, n)
      else Except.ok (p :: ps, n + 1)

/-- Embeds `Storage.import_from_file` with the external file given as a
`FileData`: parse (re-raising a decode failure as `ValueError`), validate,
load the current collection, append non-colliding records, save once
unconditionally, return the count added. -/
def import_from_file (d : Nat → Defaults) (s : StoreState) (file : FileData) :
    Except PyErr (Nat × StoreState) := do
  let j ← match read_json file with
    | Except.error PyErr.jsonDecode => Except.error (PyErr.valueError "Invalid JSON")
    | Except.error e => Except.error e
    | Except.ok j => Except.ok j
  let items ← match validate_prompt_list j with
    | Except.error m => Except.error (PyErr.valueError m)
    | Except.ok _ =>
      match j with
      | Json.arr items => Except.ok items
      | _ => Except.error (PyErr.valueError "Top-level JSON must be a list of prompt objects.")
  let (existing, s1) ← load_prompts d s
  let existing_ids := existing.map (fun p => p.id)
  let (appended, n) ← import_loop d existing_ids 0 items
  Except.ok (n, save_prompts (existing ++ appended) s1)

/-- A prompt whose serialization round-trips and validates: non-empty
`version_group_id`, positive `version_number`, and history entries that
are JSON objects (the shape every store-produced history has). -/
def WFPrompt (p : Prompt) : Bool :=
  p.version_group_id ≠ "" &&
  (1 ≤ p.version_number : Bool) &&
  p.history.all (fun h => match h with | Json.obj _ => true | _ => false)

/-- The primary-file content holding exactly the serialized collection `P`. -/
def encode (P : List Prompt) : FileData :=
  FileData.json (Json.arr (P.map (fun p => Json.obj p.to_dict)))

/-- A fixed supply of defaults (the fresh uuids / timestamps). -/
def dflt0 : Nat → Defaults := fun _ =>
  { freshId := "fresh-id", freshVgid := "fresh-vgid",
    nowCreated := "2024-01-01T00:00:00", nowUpdated := "2024-01-01T00:00:00" }

/-- A store directory right after `_ensure_data_dir`: primary `[]`,
no backups. -/
def emptyState : StoreState :=
  { primary := encode [], bak1 := FileData.absent, bak2 := FileData.absent,
    bak3 := FileData.absent, bak4 := FileData.absent, bak5 := FileData.absent,
    tmp := FileData.absent, restored_from_backup := false, saveCount := 0 }

/-- A well-formed sample prompt. -/
def pWF : Prompt :=
  { name := "Sample", content := "Body", category := Category.other,
    tags := ["t"], sensitive := false, pinned := false, history := [],
    custom_category := "", version_group_id := "vg-1", version_number := 1,
    previous_version_id := none, id := "id-1", created_at := "t0",
    updated_at := "t0" }

/-- The same prompt with the dataclass-default empty `version_group_id`. -/
def pNoVgid : Prompt := { pWF with version_group_id := "" }

/-- The state used as the C2 counterexample: a primary file with old
content, no backups. -/
def sOld : StoreState :=
  { primary := FileData.json (Json.str "old"), bak1 := FileData.absent,
    bak2 := FileData.absent, bak3 := FileData.absent, bak4 := FileData.absent,
    bak5 := FileData.absent, tmp := FileData.absent,
    restored_from_backup := false, saveCount := 0 }

/-- Whether reading-and-validating the primary file fails with one of the
errors the `except` clause of `_load_raw` catches (missing file, parse
failure, validation failure). -/
def primary_fails_caught (s : StoreState) : Bool :=
  match read_validate s.primary with
  | Except.error e => e.caughtByLoadRaw
  | Except.ok _ => false

/-- The state used as the C3 counterexample: a primary file whose read
raises a plain `OSError` (e.g. permission denied). -/
def sDenied : StoreState := { emptyState with primary := FileData.denied }

/-- The state used in the C4 witness: an unparseable primary file plus a
valid single-prompt backup in slot 1. -/
def sCorrupt : StoreState :=
  { emptyState with
      primary := FileData.invalid
      bak1 := FileData.json (Json.arr [Json.obj pWF.to_dict]) }

/-- The ids of a collection, in order (`{p.id for p in existing}` is its
set view). -/
def idsOf (P : List Prompt) : List String := P.map (fun p => p.id)

/-- A store with a single well-formed prompt in it. -/
def sOne : StoreState := { emptyState with primary := encode [pWF] }

/-- A second prompt that reuses an existing id. -/
def pDup : Prompt := { pWF with name := "Duplicate" }

/-- The effect of one `update_prompt` call on the matched record: carry
the stored history over (snapshotting and trimming when the update is
meaningful) and refresh `updated_at`. -/
def update_step (stored q : Prompt) (now : String) : Prompt :=
  if should_add_version stored q then
    ({ q with history :=
        (snapshot_prompt stored :: stored.history).take HISTORY_LIMIT }).refresh now
  else ({ q with history := stored.history }).refresh now

/-- Iterating `update_step` over a list of incoming records with their
timestamps. -/
def stored_after (p0 : Prompt) : List (Prompt × String) → Prompt
  | [] => p0
  | (q, n) :: rest => stored_after (update_step p0 q n) rest

/-- The prior states of the iterated update, as snapshots, newest first. -/
def prior_snaps (p0 : Prompt) : List (Prompt × String) → List Json
  | [] => []
  | (q, n) :: rest => prior_snaps (update_step p0 q n) rest ++ [snapshot_prompt p0]

/-- Every step of the sequence is a meaningful update of the then-stored
record by a well-formed incoming record with the same id. -/
def all_meaningful (p0 : Prompt) : List (Prompt × String) → Bool
  | [] => true
  | (q, n) :: rest =>
      should_add_version p0 q && (q.id = p0.id) && WFPrompt q &&
        all_meaningful (update_step p0 q n) rest

/-- Calling `update_prompt` once per (record, timestamp) pair, threading
the state. -/
def run_update_seq (d : Nat → Defaults) (s : StoreState) :
    List (Prompt × String) → Except PyErr StoreState
  | [] => Except.ok s
  | (q, n) :: rest => do
      let r ← update_prompt d n s q
      run_update_seq d r.2 rest

/-- The incoming records of the 15-consecutive-content-changes scenario. -/
def upd15 : List (Prompt × String) :=
  (List.range 15).map
    (fun i => ({ pWF with content := "v" ++ toString i }, "t" ++ toString i))

/-- Calling `delete_prompt` once per id, threading the state. -/
def run_deletes (d : Nat → Defaults) (s : StoreState) :
    List String → Except PyErr StoreState
  | [] => Except.ok s
  | pid :: rest => do
      let r ← delete_prompt d s pid
      run_deletes d r.2 rest

/-- A prompt with an id not present in `sOne`'s collection. -/
def pFresh : Prompt :=
  { pWF with id := "id-2", version_group_id := "vg-2", name := "Fresh" }

/-! ### Properties -/

theorem Category.fromValue_value (c : Category) :
    Category.fromValue c.value = some c := by
  cases c <;> rfl

theorem asStrList_map_str (l : List String) :
    asStrList (l.map Json.str) = some l := by
  induction l with
  | nil => rfl
  | cons a t ih => simp [asStrList, ih]

theorem jGet_to_dict_id (p : Prompt) :
    jGet p.to_dict "id" = some (Json.str p.id) := by
  simp [Prompt.to_dict, jGet, List.find?]

theorem jGet_to_dict_name (p : Prompt) :
    jGet p.to_dict "name" = some (Json.str p.name) := by
  simp [Prompt.to_dict, jGet, List.find?]

theorem jGet_to_dict_content (p : Prompt) :
    jGet p.to_dict "content" = some (Json.str p.content) := by
  simp [Prompt.to_dict, jGet, List.find?]

theorem jGet_to_dict_category (p : Prompt) :
    jGet p.to_dict "category" = some (Json.str p.category.value) := by
  simp [Prompt.to_dict, jGet, List.find?]

theorem jGet_to_dict_tags (p : Prompt) :
    jGet p.to_dict "tags" = some (Json.arr (p.tags.map Json.str)) := by
  simp [Prompt.to_dict, jGet, List.find?]

theorem jGet_to_dict_sensitive (p : Prompt) :
    jGet p.to_dict "sensitive" = some (Json.bool p.sensitive) := by
  simp [Prompt.to_dict, jGet, List.find?]

theorem jGet_to_dict_pinned (p : Prompt) :
    jGet p.to_dict "pinned" = some (Json.bool p.pinned) := by
  simp [Prompt.to_dict, jGet, List.find?]

theorem jGet_to_dict_history (p : Prompt) :
    jGet p.to_dict "history" = some (Json.arr p.history) := by
  simp [Prompt.to_dict, jGet, List.find?]

theorem jGet_to_dict_custom_category (p : Prompt) :
    jGet p.to_dict "custom_category" = some (Json.str p.custom_category) := by
  simp [Prompt.to_dict, jGet, List.find?]

theorem jGet_to_dict_version_group_id (p : Prompt) :
    jGet p.to_dict "version_group_id" =
      some (Json.str (if p.version_group_id = "" then p.id else p.version_group_id)) := by
  simp [Prompt.to_dict, jGet, List.find?]

theorem jGet_to_dict_version_number (p : Prompt) :
    jGet p.to_dict "version_number" =
      some (Json.num (max 1 (if p.version_number = 0 then 1 else p.version_number))) := by
  simp [Prompt.to_dict, jGet, List.find?]

theorem jGet_to_dict_previous_version_id (p : Prompt) :
    jGet p.to_dict "previous_version_id" =
      some ((p.previous_version_id.map Json.str).getD Json.null) := by
  simp [Prompt.to_dict, jGet, List.find?]

theorem jGet_to_dict_created_at (p : Prompt) :
    jGet p.to_dict "created_at" = some (Json.str p.created_at) := by
  simp [Prompt.to_dict, jGet, List.find?]

theorem jGet_to_dict_updated_at (p : Prompt) :
    jGet p.to_dict "updated_at" = some (Json.str p.updated_at) := by
  simp [Prompt.to_dict, jGet, List.find?]

/-- Deserializing a serialized prompt recovers it exactly, provided its
`version_group_id` is non-empty and its `version_number` is positive. -/
theorem from_dict_to_dict (d : Defaults) (p : Prompt)
    (h1 : p.version_group_id ≠ "") (h2 : 1 ≤ p.version_number) :
    Prompt.from_dict d p.to_dict = some p := by
  have hvn0 : p.version_number ≠ 0 := by omega
  simp only [Prompt.from_dict, jGetD, getStrField, getStrFieldD,
    getCategoryField, getTagsField, getHistoryField, getPvidField,
    jGet_to_dict_id, jGet_to_dict_name, jGet_to_dict_content,
    jGet_to_dict_category, jGet_to_dict_tags, jGet_to_dict_sensitive,
    jGet_to_dict_pinned, jGet_to_dict_history, jGet_to_dict_custom_category,
    jGet_to_dict_version_group_id, jGet_to_dict_version_number,
    jGet_to_dict_previous_version_id, jGet_to_dict_created_at,
    jGet_to_dict_updated_at,
    Category.fromValue_value, asStrList_map_str,
    Option.getD_some, Option.some_bind, if_neg h1, if_neg hvn0,
    max_eq_right h2]
  simp only [jTruthy, pyStr, coerce_version_number, pyInt]
  have hd1 : (decide (p.version_group_id = "")) = false := decide_eq_false h1
  simp only [Option.some_bind, hd1, Bool.not_false, if_true,
    if_pos (show p.version_number > 0 by omega)]
  cases hpv : p.previous_version_id with
  | none =>
    by_cases hcc : p.custom_category = ""
    · exact congrArg some (by cases p; simp_all)
    · exact congrArg some (by cases p; simp_all)
  | some v =>
    by_cases hcc : p.custom_category = ""
    · exact congrArg some (by cases p; simp_all)
    · exact congrArg some (by cases p; simp_all)

theorem exc_bind_ok {α β ε : Type} (a : α) (f : α → Except ε β) :
    (Except.ok a >>= f : Except ε β) = f a := rfl

theorem WFPrompt_vgid {p : Prompt} (h : WFPrompt p = true) :
    p.version_group_id ≠ "" := by
  simp only [WFPrompt, Bool.and_eq_true, decide_eq_true_eq] at h
  exact h.1.1

theorem WFPrompt_vn {p : Prompt} (h : WFPrompt p = true) :
    1 ≤ p.version_number := by
  simp only [WFPrompt, Bool.and_eq_true, decide_eq_true_eq] at h
  exact h.1.2

theorem WFPrompt_hist {p : Prompt} (h : WFPrompt p = true) :
    p.history.all (fun x => match x with | Json.obj _ => true | _ => false) = true := by
  simp only [WFPrompt, Bool.and_eq_true] at h
  exact h.2

theorem all_str_map (l : List String) :
    (l.map Json.str).all
      (fun x => match x with | Json.str _ => true | _ => false) = true := by
  induction l <;> simp_all

/-- A serialized prompt passes schema validation, provided its history
entries are JSON objects. -/
theorem validate_to_dict (idx : Nat) (p : Prompt)
    (hh : p.history.all
      (fun x => match x with | Json.obj _ => true | _ => false) = true) :
    validate_prompt_item idx (Json.obj p.to_dict) = Except.ok () := by
  simp only [validate_prompt_item, check_required_str, check_category,
    check_tags, check_bool_field, check_history, check_opt_str,
    jGet_to_dict_id, jGet_to_dict_name, jGet_to_dict_content,
    jGet_to_dict_category, jGet_to_dict_tags, jGet_to_dict_sensitive,
    jGet_to_dict_pinned, jGet_to_dict_history, jGet_to_dict_created_at,
    jGet_to_dict_updated_at,
    Category.fromValue_value, all_str_map, hh, Option.isSome_some, if_true]
  rfl

/-- The serialized collection passes `_validate_prompt_list` item by item. -/
theorem validate_items_encode (P : List Prompt) (idx : Nat)
    (hw : P.all WFPrompt = true) :
    validate_items idx (P.map (fun p => Json.obj p.to_dict)) = Except.ok () := by
  induction P generalizing idx with
  | nil => rfl
  | cons p t ih =>
    rw [List.all_cons, Bool.and_eq_true] at hw
    simp [validate_items, exc_bind_ok,
      validate_to_dict idx p (WFPrompt_hist hw.1), ih _ hw.2]

theorem read_validate_encode (P : List Prompt) (hw : P.all WFPrompt = true) :
    read_validate (encode P) =
      Except.ok (P.map (fun p => Json.obj p.to_dict)) := by
  simp [read_validate, encode, read_json, validate_prompt_list, exc_bind_ok,
    validate_items_encode P 1 hw]

theorem fromDictList_encode (d : Nat → Defaults) (idx : Nat) (P : List Prompt)
    (hw : P.all WFPrompt = true) :
    fromDictList d idx (P.map (fun p => Json.obj p.to_dict)) = Except.ok P := by
  induction P generalizing idx with
  | nil => rfl
  | cons p t ih =>
    rw [List.all_cons, Bool.and_eq_true] at hw
    simp [fromDictList, fromDictE, exc_bind_ok,
      from_dict_to_dict (d idx) p (WFPrompt_vgid hw.1) (WFPrompt_vn hw.1),
      ih _ hw.2]

/-- Loading from a state whose primary file holds the serialized
collection `P` returns `P` itself and leaves the state untouched. -/
theorem load_prompts_encode (d : Nat → Defaults) (P : List Prompt)
    (s : StoreState) (hp : s.primary = encode P) (hw : P.all WFPrompt = true) :
    load_prompts d s = Except.ok (P, s) := by
  simp [load_prompts, load_raw, hp, read_validate_encode P hw, exc_bind_ok,
    fromDictList_encode d 0 P hw]

theorem save_prompts_primary (P : List Prompt) (s : StoreState) :
    (save_prompts P s).primary = encode P := rfl

theorem save_prompts_saveCount (P : List Prompt) (s : StoreState) :
    (save_prompts P s).saveCount = s.saveCount + 1 := rfl

theorem exc_bind_error {α β ε : Type} (e : ε) (f : α → Except ε β) :
    (Except.error e >>= f : Except ε β) = Except.error e := rfl

theorem bind_ok_inv {ε α β : Type} {c : Except ε α} {f : α → Except ε β} {b : β}
    (h : (c >>= f) = Except.ok b) : ∃ a, c = Except.ok a ∧ f a = Except.ok b := by
  cases c with
  | ok a => exact ⟨a, rfl, h⟩
  | error e => exact absurd h (by simp [exc_bind_error])

theorem asStrList_of_all (xs : List Json)
    (h : xs.all (fun x => match x with | Json.str _ => true | _ => false) = true) :
    ∃ l, asStrList xs = some l := by
  induction xs with
  | nil => exact ⟨[], rfl⟩
  | cons a t ih =>
    rw [List.all_cons, Bool.and_eq_true] at h
    obtain ⟨l, hl⟩ := ih h.2
    cases a <;> simp_all [asStrList]

/-- Inversion for one step of the validation chain. -/
theorem ebind_ok_inv {c : Except String Unit} {f : Unit → Except String Unit}
    (h : Except.bind c f = Except.ok ()) :
    c = Except.ok () ∧ f () = Except.ok () := by
  cases c with
  | ok a => exact ⟨rfl, h⟩
  | error e => exact absurd h (by simp [Except.bind])

theorem check_required_str_ok {idx : Nat} {fields : List (String × Json)}
    {k : String} (h : check_required_str idx fields k = Except.ok ()) :
    ∃ s, jGet fields k = some (Json.str s) := by
  unfold check_required_str at h
  rcases hx : jGet fields k with - | v
  · rw [hx] at h; simp at h
  · cases v with
    | str s => exact ⟨s, rfl⟩
    | null => rw [hx] at h; simp at h
    | bool b => rw [hx] at h; simp at h
    | num n => rw [hx] at h; simp at h
    | arr xs => rw [hx] at h; simp at h
    | obj fs => rw [hx] at h; simp at h

theorem check_category_ok {idx : Nat} {fields : List (String × Json)}
    (h : check_category idx fields = Except.ok ()) :
    ∃ c, getCategoryField fields = some c := by
  unfold check_category at h
  rcases hx : jGet fields "category" with - | v
  · exact ⟨Category.other, by simp [getCategoryField, hx, Category.fromValue]⟩
  · cases v with
    | str s =>
      rw [hx] at h
      simp at h
      obtain ⟨c, hfv⟩ := Option.ne_none_iff_exists'.mp h
      exact ⟨c, by simp [getCategoryField, hx, hfv]⟩
    | null => rw [hx] at h; simp at h
    | bool b => rw [hx] at h; simp at h
    | num n => rw [hx] at h; simp at h
    | arr xs => rw [hx] at h; simp at h
    | obj fs => rw [hx] at h; simp at h

theorem check_tags_ok {idx : Nat} {fields : List (String × Json)}
    (h : check_tags idx fields = Except.ok ()) :
    ∃ l, getTagsField fields = some l := by
  unfold check_tags at h
  rcases hx : jGet fields "tags" with - | v
  · exact ⟨[], by simp [getTagsField, hx]⟩
  · cases v with
    | arr xs =>
      rw [hx] at h
      simp at h
      obtain ⟨l, hl⟩ := asStrList_of_all xs (List.all_eq_true.mpr h)
      exact ⟨l, by simp [getTagsField, hx, hl]⟩
    | null => rw [hx] at h; simp at h
    | bool b => rw [hx] at h; simp at h
    | num n => rw [hx] at h; simp at h
    | str s => rw [hx] at h; simp at h
    | obj fs => rw [hx] at h; simp at h

theorem check_opt_str_ok {idx : Nat} {fields : List (String × Json)}
    {k : String} (h : check_opt_str idx fields k = Except.ok ())
    (dflt : String) : ∃ v, getStrFieldD fields k dflt = some v := by
  unfold check_opt_str at h
  rcases hx : jGet fields k with - | v
  · exact ⟨dflt, by simp [getStrFieldD, hx]⟩
  · cases v with
    | str s => exact ⟨s, by simp [getStrFieldD, hx]⟩
    | null => rw [hx] at h; simp at h
    | bool b => rw [hx] at h; simp at h
    | num n => rw [hx] at h; simp at h
    | arr xs => rw [hx] at h; simp at h
    | obj fs => rw [hx] at h; simp at h

/-- Every item that passes `_validate_prompt_item` deserializes without an
exception: the store pattern "validate, then `from_dict`" is total. -/
theorem from_dict_of_validated (df : Defaults) (idx : Nat) (item : Json)
    (h : validate_prompt_item idx item = Except.ok ()) :
    ∃ p, fromDictE df item = Except.ok p := by
  cases item with
  | null => simp [validate_prompt_item] at h
  | bool b => simp [validate_prompt_item] at h
  | num n => simp [validate_prompt_item] at h
  | str s => simp [validate_prompt_item] at h
  | arr xs => simp [validate_prompt_item] at h
  | obj fields =>
    simp only [validate_prompt_item] at h
    obtain ⟨h1, h⟩ := ebind_ok_inv h
    obtain ⟨h2, h⟩ := ebind_ok_inv h
    obtain ⟨h3, h⟩ := ebind_ok_inv h
    obtain ⟨h4, h⟩ := ebind_ok_inv h
    obtain ⟨-, h⟩ := ebind_ok_inv h
    obtain ⟨-, h⟩ := ebind_ok_inv h
    obtain ⟨-, h⟩ := ebind_ok_inv h
    obtain ⟨h8, h⟩ := ebind_ok_inv h
    obtain ⟨h9, h10⟩ := ebind_ok_inv h
    obtain ⟨ns, hname⟩ := check_required_str_ok h1
    obtain ⟨cs, hcontent⟩ := check_required_str_ok h2
    obtain ⟨vcat, hcat⟩ := check_category_ok h3
    obtain ⟨vt, htags⟩ := check_tags_ok h4
    obtain ⟨vid, hid⟩ := check_opt_str_ok h8 df.freshId
    obtain ⟨vca, hca⟩ := check_opt_str_ok h9 df.nowCreated
    obtain ⟨vua, hua⟩ := check_opt_str_ok h10 df.nowUpdated
    have hname2 : getStrField fields "name" = some ns := by
      simp [getStrField, hname]
    have hcontent2 : getStrField fields "content" = some cs := by
      simp [getStrField, hcontent]
    simp only [fromDictE, Prompt.from_dict, hid, hname2, hcontent2, hcat, htags,
      hca, hua, Option.some_bind]
    exact ⟨_, rfl⟩

/-- A fully validated item list deserializes without an exception,
whatever 1-based validation index and 0-based defaults index are used. -/
theorem fromDictList_of_validated (d : Nat → Defaults) (items : List Json) :
    ∀ vidx fidx : Nat, validate_items vidx items = Except.ok () →
      ∃ ps, fromDictList d fidx items = Except.ok ps := by
  induction items with
  | nil => exact fun _ _ _ => ⟨[], rfl⟩
  | cons item rest ih =>
    intro vidx fidx hv
    unfold validate_items at hv
    obtain ⟨u, h1, h2⟩ := bind_ok_inv hv
    obtain ⟨p, hp⟩ := from_dict_of_validated (d fidx) vidx item h1
    obtain ⟨ps, hps⟩ := ih (vidx + 1) (fidx + 1) h2
    exact ⟨p :: ps, by simp [fromDictList, hp, hps, exc_bind_ok]⟩

theorem validate_prompt_list_arr {data : Json}
    (h : validate_prompt_list data = Except.ok ()) :
    ∃ items, data = Json.arr items ∧ validate_items 1 items = Except.ok () := by
  cases data <;> simp [validate_prompt_list] at h ⊢
  assumption

/-- What a successful `try_backup` guarantees about the slot content. -/
theorem try_backup_spec {fd : FileData} {data : Json}
    (h : try_backup fd = some data) :
    read_json fd = Except.ok data ∧ validate_prompt_list data = Except.ok () := by
  unfold try_backup at h
  rcases hr : read_json fd with e | j <;> rw [hr] at h
  · simp at h
  · rcases hv : validate_prompt_list j with m | u <;> simp [hv] at h
    subst h
    cases u
    exact ⟨rfl, hv⟩

/-- The backup the restore scan picks parses and validates. -/
theorem first_valid_backup_spec {s : StoreState} {data : Json}
    (h : first_valid_backup s = some data) :
    ∃ items, data = Json.arr items ∧ validate_items 1 items = Except.ok () := by
  unfold first_valid_backup at h
  rcases h1 : try_backup s.bak1 with - | j1
  all_goals rcases h2 : try_backup s.bak2 with - | j2
  all_goals rcases h3 : try_backup s.bak3 with - | j3
  all_goals rcases h4 : try_backup s.bak4 with - | j4
  all_goals rcases h5 : try_backup s.bak5 with - | j5
  all_goals rw [h1, h2, h3, h4, h5] at h
  all_goals simp [Option.orElse] at h
  all_goals first
    | (subst h; exact validate_prompt_list_arr (try_backup_spec h1).2)
    | (subst h; exact validate_prompt_list_arr (try_backup_spec h2).2)
    | (subst h; exact validate_prompt_list_arr (try_backup_spec h3).2)
    | (subst h; exact validate_prompt_list_arr (try_backup_spec h4).2)
    | (subst h; exact validate_prompt_list_arr (try_backup_spec h5).2)

theorem read_validate_json_of_valid {data : Json} {items : List Json}
    (harr : data = Json.arr items)
    (hv : validate_items 1 items = Except.ok ()) :
    read_validate (FileData.json data) = Except.ok items := by
  subst harr
  simp [read_validate, read_json, validate_prompt_list, hv, exc_bind_ok]

theorem write_json_atomic_primary (s : StoreState) (data : Json) (rotate : Bool) :
    (write_json_atomic s data rotate).primary = FileData.json data := by
  unfold write_json_atomic
  cases rotate <;> rfl

/-- Embeds `_load_raw` when the primary file parses and validates. -/
theorem load_raw_of_ok {s : StoreState} {items : List Json}
    (h : read_validate s.primary = Except.ok items) :
    load_raw s = Except.ok (items, s) := by
  simp [load_raw, h]

/-- Embeds `_load_raw` on a caught primary failure with at least one valid
backup: the newest valid backup is written back (no rotation), the restore
flag is set, and its items are returned. -/
theorem load_raw_restore {s : StoreState} {e : PyErr} {data : Json}
    (he : read_validate s.primary = Except.error e)
    (hc : e.caughtByLoadRaw = true)
    (hb : first_valid_backup s = some data) :
    ∃ items, data = Json.arr items ∧
      load_raw s = Except.ok (items,
        { write_json_atomic s data false with restored_from_backup := true }) := by
  obtain ⟨items, harr, hv⟩ := first_valid_backup_spec hb
  refine ⟨items, harr, ?_⟩
  simp [load_raw, he, hc, restore_from_backup, hb, write_json_atomic_primary,
    read_validate_json_of_valid harr hv]

/-- Embeds `_load_raw` on a caught primary failure with no valid backup:
the empty list, state untouched. -/
theorem load_raw_norestore {s : StoreState} {e : PyErr}
    (he : read_validate s.primary = Except.error e)
    (hc : e.caughtByLoadRaw = true)
    (hb : first_valid_backup s = none) :
    load_raw s = Except.ok ([], s) := by
  simp [load_raw, he, hc, restore_from_backup, hb]

/-- Embeds `_load_raw` propagates an uncaught error (a plain `OSError`). -/
theorem load_raw_uncaught {s : StoreState} {e : PyErr}
    (he : read_validate s.primary = Except.error e)
    (hc : e.caughtByLoadRaw = false) :
    load_raw s = Except.error e := by
  simp [load_raw, he, hc]

/-- C1 counterexample: the round-trip is not the identity on every prompt
list.  For a prompt whose `version_group_id` is the empty string (the
dataclass default), `to_dict` substitutes the prompt's own id
(`version_group_id or id`), so the reloaded prompt differs from the
original in that field. -/
theorem C1_cex :
    load_prompts dflt0 (save_prompts [pNoVgid] emptyState) =
      Except.ok ([{ pNoVgid with version_group_id := "id-1" }],
        save_prompts [pNoVgid] emptyState) ∧
    ({ pNoVgid with version_group_id := "id-1" } : Prompt) ≠ pNoVgid := by
  constructor
  · rfl
  · intro h
    exact absurd (congrArg Prompt.version_group_id h) (by decide)

/-- C1 (amended): for every prompt list in which each prompt has a
non-empty `version_group_id`, a positive `version_number` and
object-shaped history entries, `load_prompts` after `save_prompts`
returns a list equal to the input on all fields (and leaves the state as
the save left it). -/
theorem C1_roundtrip (d : Nat → Defaults) (P : List Prompt) (s : StoreState)
    (hw : P.all WFPrompt = true) :
    load_prompts d (save_prompts P s) = Except.ok (P, save_prompts P s) :=
  load_prompts_encode d P _ (save_prompts_primary P s) hw

/-- C1 witness: the round-trip theorem applied at a concrete store and
list. -/
theorem C1_roundtrip_witness :
    ([pWF].all WFPrompt = true) ∧
      load_prompts dflt0 (save_prompts [pWF] emptyState) =
        Except.ok ([pWF], save_prompts [pWF] emptyState) :=
  ⟨rfl, C1_roundtrip dflt0 [pWF] emptyState rfl⟩

/-! ### C2: atomicity of the write procedure -/

theorem rot5_primary (x : StoreState) : (rot5 x).primary = x.primary := by
  unfold rot5; split <;> rfl

theorem rot4_primary (x : StoreState) : (rot4 x).primary = x.primary := by
  unfold rot4; split <;> rfl

theorem rot3_primary (x : StoreState) : (rot3 x).primary = x.primary := by
  unfold rot3; split <;> rfl

theorem rot2_primary (x : StoreState) : (rot2 x).primary = x.primary := by
  unfold rot2; split <;> rfl

theorem rotPrimary_cases (x : StoreState) :
    (rotPrimary x).primary = x.primary ∨
      ((rotPrimary x).primary = FileData.absent ∧ (rotPrimary x).bak1 = x.primary) := by
  unfold rotPrimary; split
  · exact Or.inr ⟨rfl, rfl⟩
  · exact Or.inl rfl

/-- C2 counterexample: with backup rotation enabled (the configuration of
every save), there is an observable point of `_write_json_atomic` at
which the primary file is neither its old content nor the new content: it
has been moved into `.bak1`, so the primary path is absent between the
rotation and the final rename. -/
theorem C2_cex :
    ¬ (∀ st ∈ write_json_atomic_trace sOld (Json.str "new") true,
        st.primary = sOld.primary ∨
          st.primary = FileData.json (Json.str "new")) := by
  intro hall
  have hmem : rotate_backups { sOld with tmp := FileData.json (Json.str "new") } ∈
      write_json_atomic_trace sOld (Json.str "new") true := by
    simp [write_json_atomic_trace]
  rcases hall _ hmem with h | h
  · exact Bool.noConfusion (congrArg FileData.present h)
  · exact Bool.noConfusion (congrArg FileData.present h)

/-- C2 (amended): at every observable point of `_write_json_atomic` the
primary file is fully its old content, fully the new content, or — only
with rotation enabled — absent with the old content preserved intact in
`.bak1`; the procedure ends with the primary holding exactly the new
content, and with rotation disabled the primary is untouched until the
final atomic rename. -/
theorem C2_atomic (s : StoreState) (data : Json) (rotate : Bool) :
    (∀ st ∈ write_json_atomic_trace s data rotate,
      st.primary = s.primary ∨ st.primary = FileData.json data ∨
        (rotate = true ∧ st.primary = FileData.absent ∧ st.bak1 = s.primary)) ∧
    (write_json_atomic_trace s data rotate).getLast? =
        some (write_json_atomic s data rotate) ∧
    (write_json_atomic s data rotate).primary = FileData.json data ∧
    (rotate = false →
      ∀ st ∈ (write_json_atomic_trace s data rotate).dropLast,
        st.primary = s.primary) := by
  refine ⟨?_, ?_, write_json_atomic_primary s data rotate, ?_⟩
  · intro st hst
    cases rotate with
    | false =>
      simp only [write_json_atomic_trace, Bool.false_eq_true, if_false,
        List.cons_append, List.nil_append, List.mem_cons, List.mem_singleton,
        List.not_mem_nil, or_false] at hst
      rcases hst with rfl | rfl | rfl | rfl
      · exact Or.inl rfl
      · exact Or.inl rfl
      · exact Or.inl rfl
      · exact Or.inr (Or.inl rfl)
    | true =>
      simp only [write_json_atomic_trace, if_true, List.cons_append,
        List.nil_append, List.mem_cons, List.mem_singleton,
        List.not_mem_nil, or_false] at hst
      have hT : ({ s with tmp := FileData.json data } : StoreState).primary
          = s.primary := rfl
      rcases hst with rfl | rfl | rfl | rfl | rfl | rfl | rfl | rfl | rfl
      · exact Or.inl rfl
      · exact Or.inl rfl
      · exact Or.inl rfl
      · exact Or.inl (by rw [rot5_primary, hT])
      · exact Or.inl (by rw [rot4_primary, rot5_primary, hT])
      · exact Or.inl (by rw [rot3_primary, rot4_primary, rot5_primary, hT])
      · exact Or.inl (by rw [rot2_primary, rot3_primary, rot4_primary, rot5_primary, hT])
      · rcases rotPrimary_cases (rot2 (rot3 (rot4 (rot5 { s with tmp := FileData.json data })))) with h | h
        · exact Or.inl (by
            rw [rotate_backups, h, rot2_primary, rot3_primary, rot4_primary,
              rot5_primary, hT])
        · refine Or.inr (Or.inr ⟨rfl, by rw [rotate_backups]; exact h.1, ?_⟩)
          rw [rotate_backups]
          rw [h.2, rot2_primary, rot3_primary, rot4_primary, rot5_primary, hT]
      · exact Or.inr (Or.inl rfl)
  · cases rotate <;> rfl
  · intro hr st hst
    subst hr
    simp only [write_json_atomic_trace, Bool.false_eq_true, if_false,
      List.cons_append, List.nil_append, List.dropLast, List.mem_cons,
      List.mem_singleton, List.not_mem_nil, or_false] at hst
    rcases hst with rfl | rfl | rfl
    · rfl
    · rfl
    · rfl

/-- C2 witness: the trace disjunction instantiated at the initial state of
a concrete trace. -/
theorem C2_atomic_witness :
    emptyState.primary = emptyState.primary ∨
      emptyState.primary = FileData.json (Json.str "v") ∨
      (true = true ∧ emptyState.primary = FileData.absent ∧
        emptyState.bak1 = emptyState.primary) :=
  (C2_atomic emptyState (Json.str "v") true).1 emptyState
    (by simp [write_json_atomic_trace])

theorem read_validate_ok_validated {fd : FileData} {items : List Json}
    (h : read_validate fd = Except.ok items) :
    validate_items 1 items = Except.ok () := by
  unfold read_validate at h
  rcases hr : read_json fd with e | j <;> rw [hr] at h
  · simp [exc_bind_error] at h
  · rw [exc_bind_ok] at h
    rcases hv : validate_prompt_list j with m | u <;> rw [hv] at h
    · simp at h
    · cases u
      obtain ⟨its, harr, hvi⟩ := validate_prompt_list_arr hv
      subst harr
      simp at h
      subst h
      exact hvi

theorem read_validate_err_caught {fd : FileData} {e : PyErr}
    (hnd : fd ≠ FileData.denied) (h : read_validate fd = Except.error e) :
    e.caughtByLoadRaw = true := by
  unfold read_validate at h
  cases fd with
  | denied => exact absurd rfl hnd
  | absent =>
    simp [read_json, exc_bind_error] at h
    subst h; rfl
  | invalid =>
    simp [read_json, exc_bind_error] at h
    subst h; rfl
  | json j =>
    rw [show read_json (FileData.json j) = Except.ok j from rfl, exc_bind_ok] at h
    rcases hv : validate_prompt_list j with m | u <;> rw [hv] at h
    · simp at h; subst h; rfl
    · cases j <;> simp at h <;> subst h <;> rfl

/-- C3 counterexample: `load_prompts` raises for a primary file whose read
fails with an `OSError` that is not `FileNotFoundError` — the `except`
clause of `_load_raw` names only `FileNotFoundError`, `JSONDecodeError`
and `ValueError`, so the claim's "I/O failure" case propagates. -/
theorem C3_cex : load_prompts dflt0 sDenied = Except.error PyErr.osError := rfl

/-- C3 (amended): whenever reading the primary file raises only the
caught error kinds (file missing, unparseable JSON, schema-validation
failure — not a plain `OSError`), `load_prompts` returns a list; and when
the primary fails and no backup parses and validates, it returns the
empty list with the state untouched. -/
theorem C3_load_total (d : Nat → Defaults) (s : StoreState)
    (h : s.primary ≠ FileData.denied) :
    (∃ l s1, load_prompts d s = Except.ok (l, s1)) ∧
    (primary_fails_caught s = true → first_valid_backup s = none →
      load_prompts d s = Except.ok ([], s)) := by
  constructor
  · rcases hrv : read_validate s.primary with e | items
    · have hc := read_validate_err_caught h hrv
      rcases hb : first_valid_backup s with - | data
      · exact ⟨[], s, by simp [load_prompts, load_raw_norestore hrv hc hb,
          exc_bind_ok, fromDictList]⟩
      · obtain ⟨items2, harr, hlr⟩ := load_raw_restore hrv hc hb
        obtain ⟨its2, harr2, hvi⟩ := first_valid_backup_spec hb
        rw [harr] at harr2
        have heq : items2 = its2 := by injection harr2
        rw [← heq] at hvi
        obtain ⟨ps, hps⟩ := fromDictList_of_validated d items2 1 0 hvi
        exact ⟨ps,
          { write_json_atomic s data false with restored_from_backup := true },
          by simp [load_prompts, hlr, exc_bind_ok, hps]⟩
    · have hvi := read_validate_ok_validated hrv
      obtain ⟨ps, hps⟩ := fromDictList_of_validated d items 1 0 hvi
      exact ⟨ps, s, by simp [load_prompts, load_raw_of_ok hrv, exc_bind_ok, hps]⟩
  · intro hf hb
    unfold primary_fails_caught at hf
    rcases hrv : read_validate s.primary with e | items <;> rw [hrv] at hf
    · simp [load_prompts, load_raw_norestore hrv hf hb, exc_bind_ok, fromDictList]
    · simp at hf

/-- C3 witness: the theorem applied at a concrete healthy store. -/
theorem C3_load_total_witness :
    (emptyState.primary ≠ FileData.denied) ∧
      (∃ l s1, load_prompts dflt0 emptyState = Except.ok (l, s1)) :=
  ⟨fun h => absurd (congrArg (fun fd => (read_json fd).isOk) h) (by decide),
    (C3_load_total dflt0 emptyState
      (fun h => absurd (congrArg (fun fd => (read_json fd).isOk) h) (by decide))).1⟩

/-- C4: when the primary file is missing / unparseable / invalid (a caught
failure) and the backup scan bak1..bak5 finds a valid slot, `load_prompts`
returns that newest valid backup's records, writes the backup content
back to the primary path without touching any backup slot, sets the
restore flag so that `consume_restore_flag` returns `true` exactly once,
and returns `false` on the following call. -/
theorem C4_corruption_recovery (d : Nat → Defaults) (s : StoreState)
    (data : Json) (hf : primary_fails_caught s = true)
    (hb : first_valid_backup s = some data) :
    ∃ items ps,
      data = Json.arr items ∧
      fromDictList d 0 items = Except.ok ps ∧
      load_prompts d s = Except.ok (ps,
        { write_json_atomic s data false with restored_from_backup := true }) ∧
      (write_json_atomic s data false).bak1 = s.bak1 ∧
      (write_json_atomic s data false).bak2 = s.bak2 ∧
      (write_json_atomic s data false).bak3 = s.bak3 ∧
      (write_json_atomic s data false).bak4 = s.bak4 ∧
      (write_json_atomic s data false).bak5 = s.bak5 ∧
      (write_json_atomic s data false).primary = FileData.json data ∧
      consume_restore_flag
          { write_json_atomic s data false with restored_from_backup := true } =
        (true, { write_json_atomic s data false with restored_from_backup := false }) ∧
      consume_restore_flag
          { write_json_atomic s data false with restored_from_backup := false } =
        (false, { write_json_atomic s data false with restored_from_backup := false }) := by
  unfold primary_fails_caught at hf
  rcases hrv : read_validate s.primary with e | items0 <;> rw [hrv] at hf
  · obtain ⟨items, harr, hlr⟩ := load_raw_restore hrv hf hb
    obtain ⟨its2, harr2, hvi⟩ := first_valid_backup_spec hb
    rw [harr] at harr2
    have heq : items = its2 := by injection harr2
    rw [← heq] at hvi
    obtain ⟨ps, hps⟩ := fromDictList_of_validated d items 1 0 hvi
    refine ⟨items, ps, harr, hps, ?_, rfl, rfl, rfl, rfl, rfl, rfl, rfl, rfl⟩
    simp [load_prompts, hlr, exc_bind_ok, hps]
  · simp at hf

/-- C4 witness: recovery applied at a concrete corrupted store. -/
theorem C4_corruption_recovery_witness :
    primary_fails_caught sCorrupt = true ∧
      first_valid_backup sCorrupt = some (Json.arr [Json.obj pWF.to_dict]) ∧
      (∃ items ps,
        Json.arr [Json.obj pWF.to_dict] = Json.arr items ∧
        fromDictList dflt0 0 items = Except.ok ps ∧
        load_prompts dflt0 sCorrupt = Except.ok (ps,
          { write_json_atomic sCorrupt (Json.arr [Json.obj pWF.to_dict]) false with
              restored_from_backup := true }) ∧
        (write_json_atomic sCorrupt (Json.arr [Json.obj pWF.to_dict]) false).bak1 = sCorrupt.bak1 ∧
        (write_json_atomic sCorrupt (Json.arr [Json.obj pWF.to_dict]) false).bak2 = sCorrupt.bak2 ∧
        (write_json_atomic sCorrupt (Json.arr [Json.obj pWF.to_dict]) false).bak3 = sCorrupt.bak3 ∧
        (write_json_atomic sCorrupt (Json.arr [Json.obj pWF.to_dict]) false).bak4 = sCorrupt.bak4 ∧
        (write_json_atomic sCorrupt (Json.arr [Json.obj pWF.to_dict]) false).bak5 = sCorrupt.bak5 ∧
        (write_json_atomic sCorrupt (Json.arr [Json.obj pWF.to_dict]) false).primary =
          FileData.json (Json.arr [Json.obj pWF.to_dict]) ∧
        consume_restore_flag
            { write_json_atomic sCorrupt (Json.arr [Json.obj pWF.to_dict]) false with
                restored_from_backup := true } =
          (true, { write_json_atomic sCorrupt (Json.arr [Json.obj pWF.to_dict]) false with
              restored_from_backup := false }) ∧
        consume_restore_flag
            { write_json_atomic sCorrupt (Json.arr [Json.obj pWF.to_dict]) false with
                restored_from_backup := false } =
          (false, { write_json_atomic sCorrupt (Json.arr [Json.obj pWF.to_dict]) false with
              restored_from_backup := false })) :=
  ⟨rfl, rfl, C4_corruption_recovery dflt0 sCorrupt (Json.arr [Json.obj pWF.to_dict]) rfl rfl⟩

theorem add_prompt_encode (d : Nat → Defaults) (P : List Prompt)
    (s : StoreState) (hs : s.primary = encode P) (hw : P.all WFPrompt = true)
    (q : Prompt) :
    add_prompt d s q = Except.ok (q, save_prompts (P ++ [q]) s) := by
  simp [add_prompt, load_prompts_encode d P s hs hw, exc_bind_ok]

theorem update_prompt_found (d : Nat → Defaults) (now : String)
    (P : List Prompt) (s : StoreState) (hs : s.primary = encode P)
    (hw : P.all WFPrompt = true) (q : Prompt) (P2 : List Prompt)
    (hu : update_in_list now q P = some P2) :
    update_prompt d now s q = Except.ok (true, save_prompts P2 s) := by
  simp [update_prompt, load_prompts_encode d P s hs hw, exc_bind_ok, hu]

theorem update_prompt_notfound (d : Nat → Defaults) (now : String)
    (P : List Prompt) (s : StoreState) (hs : s.primary = encode P)
    (hw : P.all WFPrompt = true) (q : Prompt)
    (hu : update_in_list now q P = none) :
    update_prompt d now s q = Except.ok (false, s) := by
  simp [update_prompt, load_prompts_encode d P s hs hw, exc_bind_ok, hu]

theorem delete_prompt_encode (d : Nat → Defaults) (P : List Prompt)
    (s : StoreState) (hs : s.primary = encode P) (hw : P.all WFPrompt = true)
    (pid : String) :
    delete_prompt d s pid =
      (if (P.filter (fun p => p.id ≠ pid)).length < P.length then
        Except.ok (true, save_prompts (P.filter (fun p => p.id ≠ pid)) s)
      else Except.ok (false, s)) := by
  simp only [delete_prompt, load_prompts_encode d P s hs hw, exc_bind_ok]

theorem delete_prompts_encode (d : Nat → Defaults) (P : List Prompt)
    (s : StoreState) (hs : s.primary = encode P) (hw : P.all WFPrompt = true)
    (pids : List String) (hne : pids ≠ []) :
    delete_prompts d s pids =
      (if P.length - (P.filter (fun p => p.id ∉ pids)).length ≠ 0 then
        Except.ok (P.length - (P.filter (fun p => p.id ∉ pids)).length,
          save_prompts (P.filter (fun p => p.id ∉ pids)) s)
      else Except.ok (0, s)) := by
  have hne2 : pids.isEmpty = false := by
    cases pids with
    | nil => exact absurd rfl hne
    | cons a t => rfl
  simp only [delete_prompts, hne2, Bool.false_eq_true, if_false,
    load_prompts_encode d P s hs hw, exc_bind_ok]
  split
  · simp_all
  · simp_all

theorem import_loop_of_fromDictList (d : Nat → Defaults) (ids : List String) :
    ∀ (items : List Json) (idx : Nat) (Q : List Prompt),
      fromDictList d idx items = Except.ok Q →
      import_loop d ids idx items =
        Except.ok (Q.filter (fun p => p.id ∉ ids),
          (Q.filter (fun p => p.id ∉ ids)).length) := by
  intro items
  induction items with
  | nil =>
    intro idx Q h
    simp [fromDictList] at h
    subst h
    rfl
  | cons item rest ih =>
    intro idx Q h
    unfold fromDictList at h
    obtain ⟨p, hp, h2⟩ := bind_ok_inv h
    obtain ⟨Q2, hQ2, h3⟩ := bind_ok_inv h2
    simp at h3
    subst h3
    unfold import_loop
    rw [hp, exc_bind_ok, ih idx.succ Q2 hQ2, exc_bind_ok]
    by_cases hmem : p.id ∈ ids
    · simp [hmem, List.filter_cons]
    · simp [hmem, List.filter_cons]

theorem import_from_file_encode (d : Nat → Defaults) (P : List Prompt)
    (s : StoreState) (hs : s.primary = encode P) (hw : P.all WFPrompt = true)
    (items : List Json) (Q : List Prompt)
    (hv : validate_items 1 items = Except.ok ())
    (hQ : fromDictList d 0 items = Except.ok Q) :
    import_from_file d s (FileData.json (Json.arr items)) =
      Except.ok ((Q.filter (fun p => p.id ∉ idsOf P)).length,
        save_prompts (P ++ Q.filter (fun p => p.id ∉ idsOf P)) s) := by
  simp only [import_from_file, read_json, exc_bind_ok, validate_prompt_list, hv,
    load_prompts_encode d P s hs hw]
  rw [show (List.map (fun p => p.id) P) = idsOf P from rfl,
    import_loop_of_fromDictList d (idsOf P) items 0 Q hQ, exc_bind_ok]

/-! ### C5: id uniqueness across store operations -/

theorem idsOf_append (P Q : List Prompt) :
    idsOf (P ++ Q) = idsOf P ++ idsOf Q := by
  simp [idsOf]

theorem idsOf_filter_sublist (P : List Prompt) (f : Prompt → Bool) :
    List.Sublist (idsOf (P.filter f)) (idsOf P) :=
  (List.filter_sublist P).map _

/-- Replacing a record by one with the same id leaves the id list
unchanged. -/
theorem update_in_list_ids (now : String) (q : Prompt) :
    ∀ P P2 : List Prompt, update_in_list now q P = some P2 →
      idsOf P2 = idsOf P := by
  intro P
  induction P with
  | nil => intro P2 h; simp [update_in_list] at h
  | cons p rest ih =>
    intro P2 h
    unfold update_in_list at h
    by_cases hid : p.id = q.id
    · rw [if_pos hid] at h
      simp only [Option.some.injEq] at h
      subst h
      simp [idsOf, Prompt.refresh, hid]
    · rw [if_neg hid] at h
      cases hrec : update_in_list now q rest with
      | none => rw [hrec] at h; simp at h
      | some l2 =>
        rw [hrec] at h
        simp only [Option.map_some', Option.some.injEq] at h
        subst h
        simp only [idsOf, List.map_cons] at ih ⊢
        rw [ih l2 hrec]

/-- C5 counterexample: `add_prompt` performs no id check — adding a
prompt whose id already exists in the collection persists two records
with the same id, breaking uniqueness. -/
theorem C5_cex :
    (idsOf [pWF]).Nodup ∧
    add_prompt dflt0 sOne pDup =
      Except.ok (pDup, save_prompts [pWF, pDup] sOne) ∧
    idsOf [pWF, pDup] = ["id-1", "id-1"] ∧
    ¬ (idsOf [pWF, pDup]).Nodup := by
  exact ⟨by decide, rfl, by decide, by decide⟩

/-- C5 (amended): update, delete and delete-many always preserve id
uniqueness of the persisted collection; add preserves it provided the
added prompt's id is not already present; import preserves it provided
the records it actually appends (those with fresh ids) have pairwise
distinct ids among themselves. -/
theorem C5_id_uniqueness (d : Nat → Defaults) (now : String) (P : List Prompt)
    (s : StoreState) (hs : s.primary = encode P) (hw : P.all WFPrompt = true)
    (hnd : (idsOf P).Nodup) :
    (∀ q : Prompt, q.id ∉ idsOf P →
      add_prompt d s q = Except.ok (q, save_prompts (P ++ [q]) s) ∧
        (idsOf (P ++ [q])).Nodup) ∧
    (∀ (q : Prompt) (P2 : List Prompt), update_in_list now q P = some P2 →
      update_prompt d now s q = Except.ok (true, save_prompts P2 s) ∧
        (idsOf P2).Nodup) ∧
    (∀ pid : String, ∃ (b : Bool) (s2 : StoreState),
      delete_prompt d s pid = Except.ok (b, s2) ∧
        ∃ P2, s2.primary = encode P2 ∧ (idsOf P2).Nodup) ∧
    (∀ pids : List String, ∃ (n : Nat) (s2 : StoreState),
      delete_prompts d s pids = Except.ok (n, s2) ∧
        ∃ P2, s2.primary = encode P2 ∧ (idsOf P2).Nodup) ∧
    (∀ (items : List Json) (Q : List Prompt),
      validate_items 1 items = Except.ok () →
      fromDictList d 0 items = Except.ok Q →
      (idsOf (Q.filter (fun p => p.id ∉ idsOf P))).Nodup →
      import_from_file d s (FileData.json (Json.arr items)) =
        Except.ok ((Q.filter (fun p => p.id ∉ idsOf P)).length,
          save_prompts (P ++ Q.filter (fun p => p.id ∉ idsOf P)) s) ∧
        (idsOf (P ++ Q.filter (fun p => p.id ∉ idsOf P))).Nodup) := by
  refine ⟨?_, ?_, ?_, ?_, ?_⟩
  · intro q hq
    refine ⟨add_prompt_encode d P s hs hw q, ?_⟩
    rw [idsOf_append]
    refine hnd.append (by simp [idsOf]) ?_
    intro a ha hb
    simp [idsOf] at hb
    subst hb
    exact hq ha
  · intro q P2 hu
    refine ⟨update_prompt_found d now P s hs hw q P2 hu, ?_⟩
    rw [update_in_list_ids now q P P2 hu]
    exact hnd
  · intro pid
    rw [delete_prompt_encode d P s hs hw pid]
    split
    · exact ⟨true, _, rfl, P.filter (fun p => p.id ≠ pid), save_prompts_primary _ s,
        (idsOf_filter_sublist P _).nodup hnd⟩
    · exact ⟨false, s, rfl, P, hs, hnd⟩
  · intro pids
    by_cases hne : pids = []
    · subst hne
      exact ⟨0, s, rfl, P, hs, hnd⟩
    · rw [delete_prompts_encode d P s hs hw pids hne]
      split
      · exact ⟨_, _, rfl, P.filter (fun p => p.id ∉ pids),
          save_prompts_primary _ s, (idsOf_filter_sublist P _).nodup hnd⟩
      · exact ⟨0, s, rfl, P, hs, hnd⟩
  · intro items Q hv hQ hnd2
    refine ⟨import_from_file_encode d P s hs hw items Q hv hQ, ?_⟩
    rw [idsOf_append]
    refine hnd.append hnd2 ?_
    intro a ha hb
    simp only [idsOf, List.mem_map] at hb
    obtain ⟨p, hp, rfl⟩ := hb
    rw [List.mem_filter] at hp
    have ha2 : ∃ a ∈ P, a.id = p.id := by
      rw [idsOf, List.mem_map] at ha
      exact ha
    exact (of_decide_eq_true hp.2) ha2

/-- Embeds `update_in_list` at an explicit position: the first record with the
incoming id is replaced via `update_step`, the rest untouched. -/
theorem update_in_list_pos (now : String) (q : Prompt) :
    ∀ (A : List Prompt) (p : Prompt) (B : List Prompt),
      p.id ∉ idsOf A → p.id = q.id →
      update_in_list now q (A ++ p :: B) =
        some (A ++ update_step p q now :: B) := by
  intro A
  induction A with
  | nil =>
    intro p B _ hid
    simp only [List.nil_append, update_in_list, if_pos hid, update_step]
    split <;> rfl
  | cons a rest ih =>
    intro p B hA hid
    have ha : ¬ a.id = q.id := by
      intro h
      exact hA (by simp [idsOf, hid ▸ h])
    have hA2 : p.id ∉ idsOf rest := by
      intro h
      exact hA (by simp [idsOf] at h ⊢; exact Or.inr h)
    simp only [List.cons_append, update_in_list, if_neg ha, List.append_eq]
    rw [ih p B hA2 hid]
    rfl

theorem update_step_history_meaningful {p0 q : Prompt} {now : String}
    (h : should_add_version p0 q = true) :
    (update_step p0 q now).history =
      (snapshot_prompt p0 :: p0.history).take HISTORY_LIMIT := by
  simp [update_step, h, Prompt.refresh]

/-- After any sequence of meaningful updates, the stored record's history
is exactly the snapshots of the prior states, newest first, trimmed to
the bound (older prior states and the initial history dropping off). -/
theorem stored_after_history (l : List (Prompt × String)) :
    ∀ p0 : Prompt, all_meaningful p0 l = true →
      p0.history.length ≤ HISTORY_LIMIT →
      (stored_after p0 l).history =
        (prior_snaps p0 l ++ p0.history).take HISTORY_LIMIT := by
  induction l with
  | nil =>
    intro p0 _ hlen
    simp [stored_after, prior_snaps, List.take_of_length_le hlen]
  | cons step rest ih =>
    obtain ⟨q, n⟩ := step
    intro p0 hm hlen
    simp only [all_meaningful, Bool.and_eq_true] at hm
    obtain ⟨⟨⟨hsv, -⟩, -⟩, hrest⟩ := hm
    have hstep := @update_step_history_meaningful p0 q n hsv
    have hlen2 : (update_step p0 q n).history.length ≤ HISTORY_LIMIT := by
      rw [hstep]
      exact List.length_take_le _ _
    have := ih (update_step p0 q n) hrest hlen2
    simp only [stored_after, prior_snaps]
    rw [this, hstep]
    rw [List.append_assoc, List.singleton_append]
    rw [List.take_append_eq_append_take, List.take_append_eq_append_take,
      List.take_take]
    congr 1
    rw [min_eq_left (Nat.sub_le _ _)]

theorem WFPrompt_update_step {p0 q : Prompt} {n : String}
    (h0 : WFPrompt p0 = true) (hq : WFPrompt q = true) :
    WFPrompt (update_step p0 q n) = true := by
  have hvg := WFPrompt_vgid hq
  have hvn := WFPrompt_vn hq
  have hh0 := WFPrompt_hist h0
  unfold update_step
  split <;>
    simp only [WFPrompt, Prompt.refresh, Bool.and_eq_true, decide_eq_true_eq] <;>
    refine ⟨⟨hvg, hvn⟩, ?_⟩
  · rw [List.all_eq_true]
    intro x hx
    rcases List.mem_cons.mp (List.take_subset _ _ hx) with rfl | hmem
    · simp [snapshot_prompt]
    · exact (List.all_eq_true.mp hh0) x hmem
  · exact hh0

/-- Iterated meaningful updates on a single-prompt store, at the storage
level: each call matches, saves, and the final primary file holds the
iterated record. -/
theorem run_update_seq_singleton (d : Nat → Defaults) :
    ∀ (l : List (Prompt × String)) (p0 : Prompt) (s : StoreState),
      s.primary = encode [p0] → WFPrompt p0 = true →
      all_meaningful p0 l = true →
      ∃ s2, run_update_seq d s l = Except.ok s2 ∧
        s2.primary = encode [stored_after p0 l] := by
  intro l
  induction l with
  | nil => intro p0 s hs _ _; exact ⟨s, rfl, hs⟩
  | cons step rest ih =>
    obtain ⟨q, n⟩ := step
    intro p0 s hs h0 hm
    simp only [all_meaningful, Bool.and_eq_true] at hm
    obtain ⟨⟨⟨hsv, hid⟩, hq⟩, hrest⟩ := hm
    rw [decide_eq_true_eq] at hid
    have hu := update_in_list_pos n q [] p0 [] (by simp [idsOf]) hid.symm
    simp only [List.nil_append] at hu
    have hup := update_prompt_found d n [p0] s hs (by simp [h0]) q _ hu
    obtain ⟨s2, hrun, hs2⟩ := ih (update_step p0 q n)
      (save_prompts [update_step p0 q n] s)
      (save_prompts_primary _ s) (WFPrompt_update_step h0 hq) hrest
    refine ⟨s2, ?_, hs2⟩
    simp [run_update_seq, hup, exc_bind_ok, hrun]

/-- C6: a meaningful update (any of the six tracked fields differs)
prepends a snapshot of the stored pre-update state to that record's
history and trims it to at most `HISTORY_LIMIT` entries; and after any
sequence of meaningful updates the stored history is exactly the up-to-10
most recent prior states, newest first. -/
theorem C6_history (d : Nat → Defaults) (now : String) (P : List Prompt)
    (s : StoreState) (hs : s.primary = encode P) (hw : P.all WFPrompt = true)
    (A : List Prompt) (p : Prompt) (B : List Prompt) (hP : P = A ++ p :: B)
    (hA : p.id ∉ idsOf A) (q : Prompt) (hid : p.id = q.id)
    (hm : should_add_version p q = true) :
    (update_prompt d now s q =
        Except.ok (true, save_prompts (A ++ update_step p q now :: B) s) ∧
      (update_step p q now).history =
        (snapshot_prompt p :: p.history).take HISTORY_LIMIT ∧
      (update_step p q now).history.length ≤ HISTORY_LIMIT) ∧
    (∀ (l : List (Prompt × String)) (p0 : Prompt) (s0 : StoreState),
      s0.primary = encode [p0] → WFPrompt p0 = true →
      p0.history.length ≤ HISTORY_LIMIT → all_meaningful p0 l = true →
      ∃ s2, run_update_seq d s0 l = Except.ok s2 ∧
        s2.primary = encode [stored_after p0 l] ∧
        (stored_after p0 l).history =
          (prior_snaps p0 l ++ p0.history).take HISTORY_LIMIT) := by
  constructor
  · subst hP
    refine ⟨update_prompt_found d now _ s hs hw q _
      (update_in_list_pos now q A p B hA hid), ?_, ?_⟩
    · exact update_step_history_meaningful hm
    · rw [update_step_history_meaningful hm]
      exact List.length_take_le _ _
  · intro l p0 s0 hs0 h0 hlen hml
    obtain ⟨s2, hrun, hs2⟩ := run_update_seq_singleton d l p0 s0 hs0 h0 hml
    exact ⟨s2, hrun, hs2, stored_after_history l p0 hml hlen⟩

/-- C6 witness: the sequence clause applied to 15 consecutive content
changes of a single stored prompt. -/
theorem C6_history_witness :
    (should_add_version pWF { pWF with content := "v2" } = true) ∧
    (all_meaningful pWF upd15 = true) ∧
    (∃ s2, run_update_seq dflt0 sOne upd15 = Except.ok s2 ∧
      s2.primary = encode [stored_after pWF upd15] ∧
      (stored_after pWF upd15).history =
        (prior_snaps pWF upd15 ++ pWF.history).take HISTORY_LIMIT) :=
  ⟨rfl, by decide,
    (C6_history dflt0 "t" [pWF] sOne rfl rfl [] pWF [] rfl (by decide)
        { pWF with content := "v2" } rfl rfl).2
      upd15 pWF sOne rfl rfl (by decide) (by decide)⟩

/-- C7: an update identical to the stored record on all six tracked
fields still matches and saves, carries the stored history over
unchanged (no snapshot appended), refreshes `updated_at` to now, and
returns true. -/
theorem C7_noop_update (d : Nat → Defaults) (now : String) (P : List Prompt)
    (s : StoreState) (hs : s.primary = encode P) (hw : P.all WFPrompt = true)
    (A : List Prompt) (p : Prompt) (B : List Prompt) (hP : P = A ++ p :: B)
    (hA : p.id ∉ idsOf A) (q : Prompt) (hid : p.id = q.id)
    (hm : should_add_version p q = false) :
    update_prompt d now s q =
      Except.ok (true, save_prompts (A ++ update_step p q now :: B) s) ∧
    (update_step p q now).history = p.history ∧
    (update_step p q now).updated_at = now := by
  subst hP
  refine ⟨update_prompt_found d now _ s hs hw q _
    (update_in_list_pos now q A p B hA hid), ?_, ?_⟩
  · simp [update_step, hm, Prompt.refresh]
  · unfold update_step
    split <;> rfl

/-- C7 witness: a no-op update of a concrete stored prompt. -/
theorem C7_noop_update_witness :
    (should_add_version pWF pWF = false) ∧
    (update_prompt dflt0 "t9" sOne pWF =
        Except.ok (true, save_prompts ([] ++ update_step pWF pWF "t9" :: []) sOne) ∧
      (update_step pWF pWF "t9").history = pWF.history ∧
      (update_step pWF pWF "t9").updated_at = "t9") :=
  ⟨rfl, C7_noop_update dflt0 "t9" [pWF] sOne rfl rfl [] pWF [] rfl
    (by decide) pWF rfl rfl⟩

theorem all_WF_filter {P : List Prompt} (hw : P.all WFPrompt = true)
    (f : Prompt → Bool) : (P.filter f).all WFPrompt = true := by
  rw [List.all_eq_true] at hw ⊢
  exact fun x hx => hw x (List.mem_of_mem_filter hx)

/-- Sequential deletes on a healthy store end with the primary holding
the collection filtered by the whole id set. -/
theorem run_deletes_encode (d : Nat → Defaults) :
    ∀ (pids : List String) (P : List Prompt) (s : StoreState),
      s.primary = encode P → P.all WFPrompt = true →
      ∃ s3, run_deletes d s pids = Except.ok s3 ∧
        s3.primary = encode (P.filter (fun p => p.id ∉ pids)) := by
  intro pids
  induction pids with
  | nil =>
    intro P s hs hw
    refine ⟨s, rfl, ?_⟩
    have : P.filter (fun p => p.id ∉ ([] : List String)) = P := by
      simp
    rw [this]
    exact hs
  | cons pid rest ih =>
    intro P s hs hw
    have hstep := delete_prompt_encode d P s hs hw pid
    by_cases hlt : (P.filter (fun p => p.id ≠ pid)).length < P.length
    · rw [if_pos hlt] at hstep
      obtain ⟨s3, hrun, hs3⟩ := ih (P.filter (fun p => p.id ≠ pid))
        (save_prompts _ s) (save_prompts_primary _ s) (all_WF_filter hw _)
      refine ⟨s3, ?_, ?_⟩
      · unfold run_deletes
        rw [hstep, exc_bind_ok]
        exact hrun
      · rw [hs3, List.filter_filter]
        have hpred : (fun a : Prompt => decide (a.id ∉ rest) && decide (a.id ≠ pid)) =
            (fun p : Prompt => decide (p.id ∉ pid :: rest)) := by
          funext a
          by_cases h1 : a.id = pid <;> by_cases h2 : a.id ∈ rest <;>
            simp [h1, h2]
        rw [hpred]
    · rw [if_neg hlt] at hstep
      have hsub : (P.filter (fun p => p.id ≠ pid)).Sublist P :=
        List.filter_sublist P
      have hfeq : P.filter (fun p => p.id ≠ pid) = P :=
        hsub.eq_of_length
          (Nat.le_antisymm hsub.length_le (Nat.le_of_not_lt hlt))
      have hall := List.filter_eq_self.mp hfeq
      obtain ⟨s3, hrun, hs3⟩ := ih P s hs hw
      refine ⟨s3, ?_, ?_⟩
      · unfold run_deletes
        rw [hstep, exc_bind_ok]
        exact hrun
      · rw [hs3]
        congr 1
        apply List.filter_congr
        intro a ha
        have hne := of_decide_eq_true (hall a ha)
        by_cases h2 : a.id ∈ rest <;> simp [h2, hne]

/-- C8 counterexample: `delete_prompts` with ids matching nothing
performs zero saves (the save is guarded by `if deleted:`), not "exactly
one save regardless of how many ids match" — the state, including the
save counter, is returned untouched. -/
theorem C8_cex :
    delete_prompts dflt0 sOne ["zzz"] = Except.ok (0, sOne) ∧
    run_deletes dflt0 sOne ["zzz"] = Except.ok sOne ∧
    sOne.saveCount = 0 := ⟨rfl, rfl, rfl⟩

/-- C8 (amended): `delete_prompts` removes exactly the prompts whose id
is in the list, returns the count removed, and leaves the same final
collection as calling `delete_prompt` once per id; it saves at most once
— exactly once when at least one id matched, and zero times when none
did. -/
theorem C8_delete_many (d : Nat → Defaults) (P : List Prompt)
    (s : StoreState) (hs : s.primary = encode P) (hw : P.all WFPrompt = true)
    (pids : List String) (hne : pids ≠ []) :
    ∃ s2 : StoreState,
      delete_prompts d s pids =
        Except.ok (P.length - (P.filter (fun p => p.id ∉ pids)).length, s2) ∧
      s2.primary = encode (P.filter (fun p => p.id ∉ pids)) ∧
      (∃ s3, run_deletes d s pids = Except.ok s3 ∧ s3.primary = s2.primary) ∧
      s2.saveCount = s.saveCount +
        (if P.length - (P.filter (fun p => p.id ∉ pids)).length ≠ 0
          then 1 else 0) := by
  rw [delete_prompts_encode d P s hs hw pids hne]
  obtain ⟨s3, hrun, hs3⟩ := run_deletes_encode d pids P s hs hw
  by_cases hdel : P.length - (P.filter (fun p => p.id ∉ pids)).length ≠ 0
  · rw [if_pos hdel]
    refine ⟨save_prompts _ s, rfl, save_prompts_primary _ s,
      ⟨s3, hrun, ?_⟩, ?_⟩
    · rw [hs3, save_prompts_primary]
    · rw [if_pos hdel, save_prompts_saveCount]
  · rw [if_neg hdel]
    have h0 : P.length - (P.filter (fun p => p.id ∉ pids)).length = 0 := by
      omega
    have hsub : (P.filter (fun p => p.id ∉ pids)).Sublist P :=
      List.filter_sublist P
    have hlen : (P.filter (fun p => p.id ∉ pids)).length = P.length := by
      have := hsub.length_le
      omega
    have hfeq : P.filter (fun p => p.id ∉ pids) = P := hsub.eq_of_length hlen
    refine ⟨s, by rw [h0], ?_, ⟨s3, hrun, ?_⟩, by rw [if_neg hdel]; omega⟩
    · rw [hfeq]; exact hs
    · rw [hs3, hfeq, hs]

/-- C8 witness: a one-id batch delete on a concrete store. -/
theorem C8_delete_many_witness :
    ∃ s2, delete_prompts dflt0 sOne ["id-1"] =
        Except.ok ([pWF].length -
          ([pWF].filter (fun p => p.id ∉ ["id-1"])).length, s2) ∧
      s2.primary = encode ([pWF].filter (fun p => p.id ∉ ["id-1"])) ∧
      (∃ s3, run_deletes dflt0 sOne ["id-1"] = Except.ok s3 ∧
        s3.primary = s2.primary) ∧
      s2.saveCount = sOne.saveCount +
        (if [pWF].length - ([pWF].filter (fun p => p.id ∉ ["id-1"])).length ≠ 0
          then 1 else 0) :=
  C8_delete_many dflt0 [pWF] sOne rfl rfl ["id-1"] (by simp)

/-- C5 witness: uniqueness preservation applied at a concrete store, add
operation with a fresh id. -/
theorem C5_id_uniqueness_witness :
    (pFresh.id ∉ idsOf [pWF]) ∧
      (add_prompt dflt0 sOne pFresh =
          Except.ok (pFresh, save_prompts ([pWF] ++ [pFresh]) sOne) ∧
        (idsOf ([pWF] ++ [pFresh])).Nodup) :=
  ⟨by decide,
    (C5_id_uniqueness dflt0 "t" [pWF] sOne rfl rfl (by decide)).1 pFresh
      (by decide)⟩

/-- C9: importing a parsed-and-validated file appends exactly those
records whose id is not already in the collection (collisions are
skipped, the existing records stay unchanged as the prefix of the saved
collection), returns the count actually appended, and performs exactly
one save. -/
theorem C9_import (d : Nat → Defaults) (P : List Prompt) (s : StoreState)
    (hs : s.primary = encode P) (hw : P.all WFPrompt = true)
    (items : List Json) (Q : List Prompt)
    (hv : validate_items 1 items = Except.ok ())
    (hQ : fromDictList d 0 items = Except.ok Q) :
    import_from_file d s (FileData.json (Json.arr items)) =
      Except.ok ((Q.filter (fun p => p.id ∉ idsOf P)).length,
        save_prompts (P ++ Q.filter (fun p => p.id ∉ idsOf P)) s) ∧
    (save_prompts (P ++ Q.filter (fun p => p.id ∉ idsOf P)) s).primary =
      encode (P ++ Q.filter (fun p => p.id ∉ idsOf P)) ∧
    (save_prompts (P ++ Q.filter (fun p => p.id ∉ idsOf P)) s).saveCount =
      s.saveCount + 1 :=
  ⟨import_from_file_encode d P s hs hw items Q hv hQ,
    save_prompts_primary _ s, save_prompts_saveCount _ s⟩

/-- C9 witness: importing one colliding and one fresh record into a
concrete one-prompt store adds exactly one record. -/
theorem C9_import_witness :
    (validate_items 1 [Json.obj pDup.to_dict, Json.obj pFresh.to_dict] =
      Except.ok ()) ∧
    (fromDictList dflt0 0 [Json.obj pDup.to_dict, Json.obj pFresh.to_dict] =
      Except.ok [pDup, pFresh]) ∧
    (([pDup, pFresh].filter (fun p => p.id ∉ idsOf [pWF])).length = 1) ∧
    (import_from_file dflt0 sOne
        (FileData.json (Json.arr [Json.obj pDup.to_dict, Json.obj pFresh.to_dict])) =
      Except.ok (([pDup, pFresh].filter (fun p => p.id ∉ idsOf [pWF])).length,
        save_prompts ([pWF] ++ [pDup, pFresh].filter (fun p => p.id ∉ idsOf [pWF]))
          sOne)) :=
  ⟨rfl, rfl, by decide,
    (C9_import dflt0 [pWF] sOne rfl rfl
      [Json.obj pDup.to_dict, Json.obj pFresh.to_dict] [pDup, pFresh]
      rfl rfl).1⟩

/-- C10 counterexample: schema validation accepts a record whose `name`
and `content` are both the empty string — only `isinstance(..., str)` is
checked, never non-emptiness. -/
theorem C10_cex :
    validate_prompt_item 1
      (Json.obj [("name", Json.str ""), ("content", Json.str "")]) =
      Except.ok () := rfl

/-- C10 (amended): validation accepts a record only if `name` and
`content` are present with string values, but emptiness is not checked:
any pair of strings, empty or not, passes. -/
theorem C10_validation (idx : Nat) (item : Json) :
    (validate_prompt_item idx item = Except.ok () →
      ∃ (fields : List (String × Json)) (nameS contentS : String),
        item = Json.obj fields ∧
        jGet fields "name" = some (Json.str nameS) ∧
        jGet fields "content" = some (Json.str contentS)) ∧
    (∀ s1 s2 : String,
      validate_prompt_item idx
        (Json.obj [("name", Json.str s1), ("content", Json.str s2)]) =
        Except.ok ()) := by
  constructor
  · intro h
    cases item with
    | obj fields =>
      simp only [validate_prompt_item] at h
      obtain ⟨h1, h⟩ := ebind_ok_inv h
      obtain ⟨h2, -⟩ := ebind_ok_inv h
      obtain ⟨ns, hname⟩ := check_required_str_ok h1
      obtain ⟨cs, hcontent⟩ := check_required_str_ok h2
      exact ⟨fields, ns, cs, rfl, hname, hcontent⟩
    | null => simp [validate_prompt_item] at h
    | bool b => simp [validate_prompt_item] at h
    | num n => simp [validate_prompt_item] at h
    | str s => simp [validate_prompt_item] at h
    | arr xs => simp [validate_prompt_item] at h
  · intro s1 s2
    rfl

/-- C10 witness: both clauses at a concrete record. -/
theorem C10_validation_witness :
    ∃ (fields : List (String × Json)) (nameS contentS : String),
      (Json.obj [("name", Json.str "n"), ("content", Json.str "c")] : Json) =
          Json.obj fields ∧
        jGet fields "name" = some (Json.str nameS) ∧
        jGet fields "content" = some (Json.str contentS) :=
  (C10_validation 1
    (Json.obj [("name", Json.str "n"), ("content", Json.str "c")])).1 rfl
